import Mathlib

/-!
Verification development for the RAG multi-agent pipeline.

The Python sources are shallowly embedded: Python dynamic values are the
inductive `Value`, dictionaries are insertion-ordered association lists,
numpy float vectors are lists of reals, and stateful agent methods are
pure functions threading explicit state.  External collaborators (the
per-format document parsers, the TF-IDF embedding generator, the FAISS
library internals) enter as oracle parameters; everything else is
translated from the source.
-/

set_option maxRecDepth 4000
set_option maxHeartbeats 1000000

namespace RAG

/-- A Python/JSON dynamic value, as carried in message payloads, chunk
records and metadata maps.  Numbers are modelled as integers (the claims
never depend on fractional numeric payload values). -/
inductive Value where
  | null : Value
  | bool (b : Bool) : Value
  | num (n : Int) : Value
  | str (s : String) : Value
  | arr (xs : List Value) : Value
  | obj (fields : List (String × Value)) : Value

/-- Python truthiness (`bool(v)`) for the modelled values: `None`, `False`,
`0`, `""`, `[]` and `\x7b\x7d` are falsy. -/
def pyTruthy : Value → Bool
  | .null => false
  | .bool b => b
  | .num n => n != 0
  | .str s => s != ""
  | .arr xs => !xs.isEmpty
  | .obj fs => !fs.isEmpty

/-- `str(v)` as used by f-strings on payload values.  Exact for the cases the
program formats (`None` and strings); container reprs are abbreviated, and no
claim evaluates them. -/
def pyStr : Value → String
  | .null => "None"
  | .bool true => "True"
  | .bool false => "False"
  | .num n => toString n
  | .str s => s
  | .arr _ => "[...]"
  | .obj _ => "\x7b...\x7d"

/-- `d.get(k)` on a Python dict modelled as an insertion-ordered association
list (first binding wins; a real dict has unique keys). -/
def dictGet? {α β : Type} [BEq α] (d : List (α × β)) (k : α) : Option β :=
  List.lookup k d

/-- `d.get(k, default)`. -/
def dictGetD {α β : Type} [BEq α] (d : List (α × β)) (k : α) (dflt : β) : β :=
  (List.lookup k d).getD dflt

/-- `d[k] = v` on a Python dict: replaces the binding in place if the key is
present (keeping its position), otherwise appends a fresh binding. -/
def dictSet {α β : Type} [BEq α] (d : List (α × β)) (k : α) (v : β) :
    List (α × β) :=
  if d.any (fun p => p.1 == k) then
    d.map (fun p => if p.1 == k then (k, v) else p)
  else d ++ [(k, v)]

/-- Accumulator loop for `str.split()`: walk the characters, collecting the
current word in reverse in `acc`, emitting a word at each whitespace run
boundary. -/
def splitWsAux : List Char → List Char → List String
  | [], acc => if acc.isEmpty then [] else [String.mk acc.reverse]
  | c :: cs, acc =>
    if c.isWhitespace then
      if acc.isEmpty then splitWsAux cs []
      else String.mk acc.reverse :: splitWsAux cs []
    else splitWsAux cs (c :: acc)

/-- `text.split()`: split on whitespace runs, dropping empty fragments (so a
whitespace-only text splits to `[]`, exactly when `text.strip()` is empty). -/
def pySplitWs (text : String) : List String :=
  splitWsAux text.data []

/-- One chunk record built by `IngestionAgent._chunk_text`
(src/agents/ingestion_agent.py lines 135-143).  The `id` field, a fresh
uuid4, is nondeterministic and not inspected by any claim, so it is
omitted from the record. -/
structure ChunkRec where
  text : String
  source_file : String
  chunk_index : Nat
  word_count : Nat
  start_word : Nat
  end_word : Nat
deriving Repr, DecidableEq

/-- The chunk built at word offset `i` with ordinal `idx`: words
`[i, i+chunkSize)` joined by single spaces, `start_word = i`,
`end_word = min(i + chunk_size, len(words))` (ingestion_agent.py 132-143). -/
def mkChunk (words : List String) (src : String) (chunkSize i idx : Nat) : ChunkRec :=
  let chunkWords := (words.drop i).take chunkSize
  { text := String.intercalate " " chunkWords
    source_file := src
    chunk_index := idx
    word_count := chunkWords.length
    start_word := i
    end_word := min (i + chunkSize) words.length }

/-- The `for i in range(0, len(words), chunk_size - overlap)` loop of
`_chunk_text` (ingestion_agent.py 131-148): at each offset `i < len(words)`
emit the chunk at `i`, and stop right after the first offset with
`i + chunk_size >= len(words)`.  The loop is parametrised by explicit fuel;
with a positive step the loop performs at most `len(words)` iterations, so
the callers below pass `words.length` and the fuel never runs out. -/
def chunkLoop (words : List String) (src : String) (chunkSize overlap : Nat) :
    Nat → Nat → Nat → List ChunkRec
  | 0, _, _ => []
  | fuel + 1, i, idx =>
    if i < words.length then
      let c := mkChunk words src chunkSize i idx
      if words.length ≤ i + chunkSize then [c]
      else c :: chunkLoop words src chunkSize overlap fuel (i + (chunkSize - overlap)) (idx + 1)
    else []

/-- `_chunk_text` applied to an already-split word sequence. -/
def chunk_words (words : List String) (src : String) (chunkSize overlap : Nat) :
    List ChunkRec :=
  chunkLoop words src chunkSize overlap words.length 0 0

/-- `IngestionAgent._chunk_text(text, source_file, chunk_size, overlap)`
(ingestion_agent.py 123-150).  `if not text.strip(): return []` rejects
exactly the texts whose whitespace split is empty. -/
def chunk_text (text : String) (source_file : String) (chunkSize overlap : Nat) :
    List ChunkRec :=
  let words := pySplitWs text
  if words.isEmpty then []
  else chunk_words words source_file chunkSize overlap

/-- A numpy float vector, modelled over the reals (float32 rounding is not
modelled; the spec's "within floating tolerance" becomes exactness). -/
abbrev Vec := List ℝ

/-- `np.linalg.norm(v)`: the Euclidean norm. -/
noncomputable def l2norm (v : Vec) : ℝ :=
  Real.sqrt ((v.map (fun x => x * x)).sum)

/-- `v / np.linalg.norm(v)`, elementwise. -/
noncomputable def normalizeVec (v : Vec) : Vec :=
  v.map (fun x => x / l2norm v)

/-- Inner product of two vectors (`faiss.IndexFlatIP` similarity). -/
def dot (a b : Vec) : ℝ :=
  ((a.zip b).map (fun p => p.1 * p.2)).sum

/-- State of `utils/vector_store.py` `VectorStore`: the FAISS `IndexFlatIP`
contents are the flat row-ordered list of inserted vectors, and the three
bookkeeping dicts are insertion-ordered association lists. -/
structure VectorStore where
  dimension : Nat
  vectors : List Vec
  metadata_store : List (String × List (String × Value))
  id_to_index : List (String × Nat)
  index_to_id : List (Nat × String)
  next_index : Nat

/-- `VectorStore.add_vector` (vector_store.py 20-40): L2-normalize the
embedding unless its norm is zero, append it to the FAISS index, and record
the id/row mappings and the metadata. -/
noncomputable def VectorStore.add_vector (st : VectorStore) (vector_id : String)
    (embedding : Vec) (metadata : List (String × Value)) : VectorStore :=
  let e := if 0 < l2norm embedding then normalizeVec embedding else embedding
  { st with
    vectors := st.vectors ++ [e]
    id_to_index := dictSet st.id_to_index vector_id st.next_index
    index_to_id := dictSet st.index_to_id st.next_index vector_id
    metadata_store := dictSet st.metadata_store vector_id metadata
    next_index := st.next_index + 1 }

/-- `faiss.IndexFlatIP.search` over `n = rows.length` stored rows, asked for
`k <= n` neighbours: score every row by inner product with the query, sort by
descending score — stably, so equal scores keep insertion order — and return
the first `k` (row, score) pairs. -/
noncomputable def faissSearch (rows : List Vec) (q : Vec) (k : Nat) :
    List (Nat × ℝ) :=
  let scored := (List.range rows.length).zip (rows.map (fun v => dot q v))
  let sorted := scored.mergeSort (fun a b => decide (b.2 ≤ a.2))
  sorted.take k

/-- `VectorStore.search` (vector_store.py 42-67): empty index short-circuits
to `[]`; otherwise the query is normalized (unless zero-norm), FAISS is asked
for `min(top_k, ntotal)` neighbours, and each hit whose row is known to
`index_to_id` is mapped back to its string id. -/
noncomputable def VectorStore.search (st : VectorStore) (query : Vec)
    (top_k : Nat) : List (String × ℝ) :=
  if st.vectors.length = 0 then []
  else
    let q := if 0 < l2norm query then normalizeVec query else query
    let raw := faissSearch st.vectors q (min top_k st.vectors.length)
    raw.filterMap (fun p => (dictGet? st.index_to_id p.1).map (fun id => (id, p.2)))

/-- `VectorStore.remove_vector` (vector_store.py 77-83): FAISS does not
support removal, so when the id is present the record is soft-deleted by
setting `metadata["deleted"] = True` in place; nothing else changes. -/
def VectorStore.remove_vector (st : VectorStore) (vector_id : String) :
    Bool × VectorStore :=
  if (dictGet? st.metadata_store vector_id).isSome then
    (true,
     { st with
       metadata_store := st.metadata_store.map
         (fun p => if p.1 == vector_id then
            (p.1, dictSet p.2 "deleted" (Value.bool true)) else p) })
  else (false, st)

/-- `sum(1 for metadata in self.metadata_store.values() if not
metadata.get("deleted", False))` (vector_store.py 136-137). -/
def VectorStore.active_vectors (st : VectorStore) : Nat :=
  (st.metadata_store.filter
    (fun p => !pyTruthy (dictGetD p.2 "deleted" (Value.bool false)))).length

/-- `self.index.ntotal`. -/
def VectorStore.total_vectors (st : VectorStore) : Nat :=
  st.vectors.length

/-- `VectorStore.get_statistics` (vector_store.py 134-145). -/
def VectorStore.get_statistics (st : VectorStore) : List (String × Value) :=
  [("total_vectors", Value.num (st.total_vectors : Int)),
   ("active_vectors", Value.num (st.active_vectors : Int)),
   ("deleted_vectors", Value.num ((st.total_vectors : Int) - (st.active_vectors : Int))),
   ("dimension", Value.num (st.dimension : Int)),
   ("index_type", Value.str "IndexFlatIP")]

/-- `MCPMessage` (mcp.py 7-21).  `timestamp` is `Optional[str] = None` in the
dataclass and `__post_init__` replaces `None` by `datetime.now().isoformat()`;
construction therefore goes through `MCPMessage.make` below, which takes the
ambient clock reading as an explicit argument. -/
structure MCPMessage where
  sender : String
  receiver : String
  type : String
  trace_id : String
  payload : List (String × Value)
  timestamp : Option String

/-- Constructing an `MCPMessage`: `__post_init__` (mcp.py 19-21) fills a
`None` timestamp with the current time `now`. -/
def MCPMessage.make (now sender receiver type trace_id : String)
    (payload : List (String × Value)) (timestamp : Option String) : MCPMessage :=
  { sender := sender
    receiver := receiver
    type := type
    trace_id := trace_id
    payload := payload
    timestamp := some (timestamp.getD now) }

/-- `MCPMessage.to_dict` = `dataclasses.asdict(self)` (mcp.py 23-25): the six
fields in declaration order, `None` rendered as JSON `null`. -/
def MCPMessage.to_dict (m : MCPMessage) : Value :=
  Value.obj
    [("sender", Value.str m.sender),
     ("receiver", Value.str m.receiver),
     ("type", Value.str m.type),
     ("trace_id", Value.str m.trace_id),
     ("payload", Value.obj m.payload),
     ("timestamp", match m.timestamp with
       | some t => Value.str t
       | none => Value.null)]

/-- `MCPMessage.from_dict(data)` = `cls(**data)` (mcp.py 31-34): the five
mandatory fields must be present (typed per the dataclass annotations),
`timestamp` may be absent or `None` (in which case `__post_init__` fills it
from the clock), and unknown keys raise `TypeError` (here: `none`). -/
def MCPMessage.from_dict (now : String) : Value → Option MCPMessage
  | Value.obj d =>
    match dictGet? d "sender", dictGet? d "receiver", dictGet? d "type",
        dictGet? d "trace_id", dictGet? d "payload" with
    | some (Value.str s), some (Value.str r), some (Value.str t),
        some (Value.str tr), some (Value.obj p) =>
      if d.all (fun kv => kv.1 == "sender" || kv.1 == "receiver" ||
          kv.1 == "type" || kv.1 == "trace_id" || kv.1 == "payload" ||
          kv.1 == "timestamp") then
        match dictGet? d "timestamp" with
        | none => some (MCPMessage.make now s r t tr p none)
        | some Value.null => some (MCPMessage.make now s r t tr p none)
        | some (Value.str u) => some (MCPMessage.make now s r t tr p (some u))
        | some _ => none
      else none
    | _, _, _, _, _ => none
  | _ => none

/-- Numeric value of a decimal digit character. -/
def digitVal (c : Char) : Nat :=
  c.toNat - '0'.toNat

/-- Accumulate a decimal digit string, most significant first. -/
def parseNatChars (ds : List Char) : Nat :=
  ds.foldl (fun acc c => acc * 10 + digitVal c) 0

/-- Decimal rendering of a natural number (most significant digit first). -/
def printNatChars (n : Nat) : List Char :=
  if n = 0 then ['0'] else ((Nat.digits 10 n).map Nat.digitChar).reverse

/-- Decimal rendering of an integer, as `json.dumps` renders Python ints. -/
def printInt (n : Int) : List Char :=
  if n < 0 then '-' :: printNatChars n.natAbs else printNatChars n.natAbs

/-- JSON string escaping: `json.dumps` escapes the quote and the backslash
(the only escapes this model's payload strings require). -/
def escChar (c : Char) : List Char :=
  if c = '"' ∨ c = '\\' then ['\\', c] else [c]

/-- A quoted, escaped JSON string literal. -/
def printJString (s : String) : List Char :=
  '"' :: ((s.data.map escChar).flatten ++ ['"'])

/-- Parse the body of a JSON string literal (the opening quote already
consumed): raw characters up to the closing quote, with `\"` and `\\`
escapes.  Returns the unescaped characters and the strictly shorter
remainder. -/
def parseJStrChars : (l : List Char) →
    Option (List Char × {r : List Char // r.length < l.length})
  | [] => none
  | c :: r =>
    if c = '"' then some ([], ⟨r, by simp⟩)
    else if c = '\\' then
      match r with
      | [] => none
      | d :: r2 =>
        if d = '"' ∨ d = '\\' then
          match parseJStrChars r2 with
          | some (cs, ⟨rest, h⟩) => some (d :: cs, ⟨rest, by simp; omega⟩)
          | none => none
        else none
    else
      match parseJStrChars r with
      | some (cs, ⟨rest, h⟩) => some (c :: cs, ⟨rest, by simp; omega⟩)
      | none => none

mutual
/-- The textual JSON form a `Value` serializes to: `json.dumps` up to
inter-token whitespace (which `json.loads` discards). -/
def printValue : Value → List Char
  | Value.null => ['n', 'u', 'l', 'l']
  | Value.bool true => ['t', 'r', 'u', 'e']
  | Value.bool false => ['f', 'a', 'l', 's', 'e']
  | Value.num n => printInt n
  | Value.str s => printJString s
  | Value.arr vs => '[' :: printElems vs
  | Value.obj fs => '\x7b' :: printMembers fs
/-- Everything after the opening bracket of an array. -/
def printElems : List Value → List Char
  | [] => [']']
  | v :: vs => printValue v ++ printElemsTail vs
/-- Continuation of an array after one printed element. -/
def printElemsTail : List Value → List Char
  | [] => [']']
  | v :: vs => ',' :: (printValue v ++ printElemsTail vs)
/-- Everything after the opening brace of an object. -/
def printMembers : List (String × Value) → List Char
  | [] => ['\x7d']
  | (k, v) :: fs => printJString k ++ (':' :: (printValue v ++ printMembersTail fs))
/-- Continuation of an object after one printed member. -/
def printMembersTail : List (String × Value) → List Char
  | [] => ['\x7d']
  | (k, v) :: fs =>
    ',' :: (printJString k ++ (':' :: (printValue v ++ printMembersTail fs)))
end

mutual
/-- Recursive-descent `json.loads` over the grammar the printer emits.  Every
successful parse strictly consumes input, which is the termination measure. -/
def parseValue : (l : List Char) →
    Option (Value × {r : List Char // r.length < l.length})
  | [] => none
  | c :: r =>
    if c = 'n' then
      match r with
      | 'u' :: 'l' :: 'l' :: r2 => some (Value.null, ⟨r2, by simp only [List.length_cons]; omega⟩)
      | _ => none
    else if c = 't' then
      match r with
      | 'r' :: 'u' :: 'e' :: r2 => some (Value.bool true, ⟨r2, by simp only [List.length_cons]; omega⟩)
      | _ => none
    else if c = 'f' then
      match r with
      | 'a' :: 'l' :: 's' :: 'e' :: r2 => some (Value.bool false, ⟨r2, by simp only [List.length_cons]; omega⟩)
      | _ => none
    else if c = '"' then
      match parseJStrChars r with
      | some (cs, ⟨rest, h⟩) => some (Value.str (String.mk cs), ⟨rest, by simp; omega⟩)
      | none => none
    else if c = '[' then
      match parseElems r with
      | some (vs, ⟨rest, h⟩) => some (Value.arr vs, ⟨rest, by simp; omega⟩)
      | none => none
    else if c = '\x7b' then
      match parseMembers r with
      | some (fs, ⟨rest, h⟩) => some (Value.obj fs, ⟨rest, by simp; omega⟩)
      | none => none
    else if c = '-' then
      if (r.takeWhile Char.isDigit).isEmpty then none
      else some
        (Value.num (-(parseNatChars (r.takeWhile Char.isDigit) : Int)),
         ⟨r.drop (r.takeWhile Char.isDigit).length, by simp only [List.length_cons, List.length_drop]; omega⟩)
    else if c.isDigit then
      some
        (Value.num (parseNatChars (c :: r.takeWhile Char.isDigit) : Int),
         ⟨r.drop (r.takeWhile Char.isDigit).length, by simp only [List.length_cons, List.length_drop]; omega⟩)
    else none
termination_by l => 2 * l.length
decreasing_by all_goals (simp only [List.length_cons] at *; omega)
/-- Array contents after the opening bracket. -/
def parseElems : (l : List Char) →
    Option (List Value × {r : List Char // r.length < l.length})
  | [] => none
  | c :: r =>
    if c = ']' then some ([], ⟨r, by simp⟩)
    else
      match parseValue (c :: r) with
      | some (v, ⟨rest, h⟩) =>
        match parseElemsTail rest with
        | some (vs, ⟨rest2, h2⟩) => some (v :: vs, ⟨rest2, by omega⟩)
        | none => none
      | none => none
termination_by l => 2 * l.length + 1
decreasing_by all_goals (simp only [List.length_cons] at *; omega)
/-- Array contents after one parsed element: a closing bracket or a comma and
more elements. -/
def parseElemsTail : (l : List Char) →
    Option (List Value × {r : List Char // r.length < l.length})
  | [] => none
  | c :: r =>
    if c = ']' then some ([], ⟨r, by simp⟩)
    else if c = ',' then
      match parseValue r with
      | some (v, ⟨rest, h⟩) =>
        match parseElemsTail rest with
        | some (vs, ⟨rest2, h2⟩) => some (v :: vs, ⟨rest2, by simp; omega⟩)
        | none => none
      | none => none
    else none
termination_by l => 2 * l.length + 1
decreasing_by all_goals (simp only [List.length_cons] at *; omega)
/-- Object contents after the opening brace. -/
def parseMembers : (l : List Char) →
    Option (List (String × Value) × {r : List Char // r.length < l.length})
  | [] => none
  | c :: r =>
    if c = '\x7d' then some ([], ⟨r, by simp⟩)
    else if c = '"' then
      match parseJStrChars r with
      | some (ks, ⟨rest, h⟩) =>
        match rest with
        | ':' :: rest2 =>
          match parseValue rest2 with
          | some (v, ⟨rest3, h3⟩) =>
            match parseMembersTail rest3 with
            | some (fs, ⟨rest4, h4⟩) =>
              some ((String.mk ks, v) :: fs, ⟨rest4, by simp only [List.length_cons] at h ⊢; omega⟩)
            | none => none
          | none => none
        | _ => none
      | none => none
    else none
termination_by l => 2 * l.length + 1
decreasing_by all_goals (simp only [List.length_cons] at *; omega)
/-- Object contents after one parsed member. -/
def parseMembersTail : (l : List Char) →
    Option (List (String × Value) × {r : List Char // r.length < l.length})
  | [] => none
  | c :: r =>
    if c = '\x7d' then some ([], ⟨r, by simp⟩)
    else if c = ',' then
      match r with
      | '"' :: r2 =>
        match parseJStrChars r2 with
        | some (ks, ⟨rest, h⟩) =>
          match rest with
          | ':' :: rest2 =>
            match parseValue rest2 with
            | some (v, ⟨rest3, h3⟩) =>
              match parseMembersTail rest3 with
              | some (fs, ⟨rest4, h4⟩) =>
                some ((String.mk ks, v) :: fs, ⟨rest4, by simp only [List.length_cons] at h ⊢; omega⟩)
              | none => none
            | none => none
          | _ => none
        | none => none
      | _ => none
    else none
termination_by l => 2 * l.length + 1
decreasing_by all_goals (simp only [List.length_cons] at *; omega)
end

/-- `parseJStrChars` with the remainder's length bound erased. -/
def parseJStrProj (l : List Char) : Option (List Char × List Char) :=
  (parseJStrChars l).map (fun p => (p.1, p.2.val))

/-- `parseValue` with the remainder's length bound erased. -/
def parseValueProj (l : List Char) : Option (Value × List Char) :=
  (parseValue l).map (fun p => (p.1, p.2.val))

/-- `parseElems` with the remainder's length bound erased. -/
def parseElemsProj (l : List Char) : Option (List Value × List Char) :=
  (parseElems l).map (fun p => (p.1, p.2.val))

/-- `parseElemsTail` with the remainder's length bound erased. -/
def parseElemsTailProj (l : List Char) : Option (List Value × List Char) :=
  (parseElemsTail l).map (fun p => (p.1, p.2.val))

/-- `parseMembers` with the remainder's length bound erased. -/
def parseMembersProj (l : List Char) : Option (List (String × Value) × List Char) :=
  (parseMembers l).map (fun p => (p.1, p.2.val))

/-- `parseMembersTail` with the remainder's length bound erased. -/
def parseMembersTailProj (l : List Char) :
    Option (List (String × Value) × List Char) :=
  (parseMembersTail l).map (fun p => (p.1, p.2.val))

/-- `MCPMessage.to_json` (mcp.py 27-29): serialize the field dict to JSON
text (the model prints compactly; `indent=2` only adds inter-token
whitespace, which `json.loads` discards). -/
def MCPMessage.to_json (m : MCPMessage) : List Char :=
  printValue m.to_dict

/-- `MCPMessage.from_json` (mcp.py 36-40): `json.loads` the full text, then
`from_dict`. -/
def MCPMessage.from_json (now : String) (l : List Char) : Option MCPMessage :=
  match parseValue l with
  | some (v, ⟨[], _⟩) => MCPMessage.from_dict now v
  | _ => none

/-- `create_response_message` (mcp.py 91-104): a fresh message back to the
original sender, on the same trace. -/
def create_response_message (now : String) (original_message : MCPMessage)
    (sender : String) (message_type : String)
    (payload : List (String × Value)) : MCPMessage :=
  MCPMessage.make now sender original_message.sender message_type
    original_message.trace_id payload none

/-- `create_error_message` (mcp.py 106-117). -/
def create_error_message (now : String) (original_message : MCPMessage)
    (sender : String) (error : String) : MCPMessage :=
  create_response_message now original_message sender "ERROR"
    [("error", Value.str error),
     ("original_type", Value.str original_message.type)]

/-- `chunk_data[k]` / `chunk_data.get(k, dflt)` on a chunk record carried as
a dynamic value.  (Python raises `KeyError`/`TypeError` on a malformed
record; no claim exercises one, and the model returns the default.) -/
def objGetD (v : Value) (k : String) (dflt : Value) : Value :=
  match v with
  | Value.obj fs => dictGetD fs k dflt
  | _ => dflt

/-- State owned by `RetrievalAgent` (retrieval_agent.py 13-17): the vector
store and the local chunk map.  (The embedding generator's corpus lives
behind the `embed` oracle.) -/
structure RetrievalAgentState where
  vector_store : VectorStore
  document_chunks : List (String × Value)

/-- The `for chunk in chunks` loop of `_index_document` (retrieval_agent.py
56-86): the per-chunk body `tryChunk` — embedding generation plus
`add_vector`, either of which may raise (a faiss error, a `KeyError` on
`chunk["text"]`/`chunk["id"]`) — is an oracle; a failing chunk is logged and
skipped, a succeeding one updates the state and is counted. -/
def indexChunksLoop {σ : Type} (tryChunk : σ → Value → Option σ) :
    σ → List Value → σ × Nat
  | st, [] => (st, 0)
  | st, chunk :: chunks =>
    match tryChunk st chunk with
    | some st2 =>
      let res := indexChunksLoop tryChunk st2 chunks
      (res.1, res.2 + 1)
    | none => indexChunksLoop tryChunk st chunks

/-- `RetrievalAgent._index_document` (retrieval_agent.py 39-106).  A
non-list `chunks` value raises `TypeError` at the `for`, caught by the outer
`except` (modelled by the generic indexing-failed error). -/
def index_document {σ : Type} (now : String)
    (tryChunk : σ → Value → Option σ) (st : σ) (message : MCPMessage) :
    MCPMessage × σ :=
  let document_id := dictGetD message.payload "document_id" Value.null
  let file_name := dictGetD message.payload "file_name" Value.null
  let chunksVal := dictGetD message.payload "chunks" (Value.arr [])
  if pyTruthy chunksVal = false then
    (create_error_message now message "RetrievalAgent"
      "No chunks provided for indexing", st)
  else
    match chunksVal with
    | Value.arr chunks =>
      let res := indexChunksLoop tryChunk st chunks
      (create_response_message now message "RetrievalAgent" "INGESTION_COMPLETE"
        [("status", Value.str "success"),
         ("document_id", document_id),
         ("file_name", file_name),
         ("indexed_chunks", Value.num (res.2 : Int)),
         ("total_chunks", Value.num (chunks.length : Int))], res.1)
    | _ =>
      (create_error_message now message "RetrievalAgent"
        "Document indexing failed: chunks is not iterable", st)

/-- The hit-formatting loop of `_retrieve_context` (retrieval_agent.py
128-145): hits unknown to the local chunk map are silently dropped; source
references are deduplicated preserving first-seen order.  `f2v` renders a
float score as a payload value (floats are not modelled exactly). -/
noncomputable def formatHitsLoop (st : RetrievalAgentState) (f2v : ℝ → Value) :
    List (String × ℝ) → List Value → List String → List Value × List String
  | [], retrieved, sources => (retrieved, sources)
  | (chunk_id, score) :: rest, retrieved, sources =>
    match dictGet? st.document_chunks chunk_id with
    | some chunk_data =>
      let entry := Value.obj
        [("id", Value.str chunk_id),
         ("text", objGetD chunk_data "text" Value.null),
         ("source_file", objGetD chunk_data "document_name" (Value.str "Unknown")),
         ("similarity_score", f2v score),
         ("chunk_index", objGetD chunk_data "chunk_index" (Value.num 0))]
      let source_ref :=
        pyStr (objGetD chunk_data "document_name" (Value.str "Unknown")) ++
          " (chunk " ++ pyStr (objGetD chunk_data "chunk_index" (Value.num 0)) ++ ")"
      if sources.contains source_ref then
        formatHitsLoop st f2v rest (retrieved ++ [entry]) sources
      else
        formatHitsLoop st f2v rest (retrieved ++ [entry]) (sources ++ [source_ref])
    | none => formatHitsLoop st f2v rest retrieved sources

/-- `RetrievalAgent._retrieve_context` (retrieval_agent.py 108-165).  The
TF-IDF embedding generator is the oracle `embed` (generate_embedding never
raises: local_embeddings.py catches internally and falls back).  A non-int
`top_k` raises `TypeError` at `min`, caught by the outer `except`. -/
noncomputable def retrieve_context (now : String) (embed : String → Vec)
    (f2v : ℝ → Value) (st : RetrievalAgentState) (message : MCPMessage) :
    MCPMessage :=
  let query := dictGetD message.payload "query" Value.null
  let top_k := dictGetD message.payload "top_k" (Value.num 5)
  if pyTruthy query = false then
    create_error_message now message "RetrievalAgent"
      "No query provided for retrieval"
  else
    match top_k with
    | Value.num k =>
      let query_embedding := embed (pyStr query)
      let search_results := st.vector_store.search query_embedding k.toNat
      let res := formatHitsLoop st f2v search_results [] []
      create_response_message now message "RetrievalAgent" "RETRIEVAL_RESULT"
        [("status", Value.str "success"),
         ("query", query),
         ("retrieved_chunks", Value.arr res.1),
         ("sources", Value.arr (res.2.map Value.str)),
         ("total_results", Value.num (res.1.length : Int))]
    | _ =>
      create_error_message now message "RetrievalAgent"
        "Context retrieval failed: top_k is not an int"

/-- `RetrievalAgent.handle_message` (retrieval_agent.py 19-37), returning
the response message (the claims about the query flow do not observe the
post-call agent state). -/
noncomputable def retrievalHandle (now : String) (embed : String → Vec)
    (f2v : ℝ → Value)
    (tryChunk : RetrievalAgentState → Value → Option RetrievalAgentState)
    (st : RetrievalAgentState) (message : MCPMessage) : MCPMessage :=
  if message.type = "DOCUMENT_PARSED" then
    (index_document now tryChunk st message).1
  else if message.type = "RETRIEVAL_REQUEST" then
    retrieve_context now embed f2v st message
  else
    create_error_message now message "RetrievalAgent"
      ("Unsupported message type: " ++ message.type)

/-- The fixed no-context answer of `_generate_no_context_response`
(local_llm.py 35-41). -/
def noContextResponse : String :=
  "I don't have enough information in the uploaded documents to answer your question. Please make sure you've uploaded relevant documents and try asking a more specific question about the content in those documents."

/-- `LocalLLMGenerator.generate_response` (local_llm.py 13-33): an empty
chunk list yields the fixed no-context message; otherwise the heuristic
extraction/classification/template pipeline runs, modelled by the oracle
`contextual` (it also receives the conversation history in Python, which it
ignores; no claim depends on its output). -/
def generate_response (contextual : String → List Value → String)
    (query : String) (context_chunks : List Value) : String :=
  if context_chunks.isEmpty then noContextResponse
  else contextual query context_chunks

/-- `LLMResponseAgent._generate_response` (llm_response_agent.py 35-75).  A
non-list `retrieved_chunks` raises `TypeError` at `len`, caught by the
outer `except`. -/
def llm_generate_response (now : String)
    (contextual : String → List Value → String) (message : MCPMessage) :
    MCPMessage :=
  let query := dictGetD message.payload "query" Value.null
  let sources := dictGetD message.payload "sources" (Value.arr [])
  if pyTruthy query = false then
    create_error_message now message "LLMResponseAgent"
      "No query provided for response generation"
  else
    match dictGetD message.payload "retrieved_chunks" (Value.arr []) with
    | Value.arr chunks =>
      create_response_message now message "LLMResponseAgent" "LLM_RESPONSE"
        [("status", Value.str "success"),
         ("query", query),
         ("response", Value.str (generate_response contextual (pyStr query) chunks)),
         ("sources", sources),
         ("context_chunks_used", Value.num (chunks.length : Int))]
    | _ =>
      create_error_message now message "LLMResponseAgent"
        "Response generation failed: retrieved_chunks has no len()"

/-- `LLMResponseAgent.handle_message` (llm_response_agent.py 17-33). -/
def llmHandle (now : String) (contextual : String → List Value → String)
    (message : MCPMessage) : MCPMessage :=
  if message.type = "RETRIEVAL_RESULT" then
    llm_generate_response now contextual message
  else
    create_error_message now message "LLMResponseAgent"
      ("Unsupported message type: " ++ message.type)

/-- `CoordinatorAgent._handle_query_request` (coordinator_agent.py 107-185),
parametric over the two sub-agent `handle_message` entry points.  Router
logging is omitted: `route_message` only appends to the in-memory history
and cannot affect the returned message.  The function is total — the
enclosing try/except means no exception escapes the coordinator. -/
def handle_query_request (now : String)
    (retrieve llm : MCPMessage → MCPMessage) (message : MCPMessage) :
    MCPMessage :=
  let query := dictGetD message.payload "query" Value.null
  let conversation_history :=
    dictGetD message.payload "conversation_history" (Value.arr [])
  let retrieval_message := MCPMessage.make now "CoordinatorAgent"
    "RetrievalAgent" "RETRIEVAL_REQUEST" message.trace_id
    [("query", query), ("top_k", Value.num 5)] none
  let retrieval_response := retrieve retrieval_message
  if retrieval_response.type = "ERROR" then
    create_response_message now message "CoordinatorAgent" "ERROR"
      [("status", Value.str "failed"),
       ("error", Value.str ("Retrieval failed: " ++
         pyStr (dictGetD retrieval_response.payload "error" Value.null)))]
  else
    let llm_message := MCPMessage.make now "CoordinatorAgent"
      "LLMResponseAgent" "RETRIEVAL_RESULT" message.trace_id
      (dictSet retrieval_response.payload "conversation_history"
        conversation_history) none
    let llm_response := llm llm_message
    if llm_response.type = "ERROR" then
      create_response_message now message "CoordinatorAgent" "ERROR"
        [("status", Value.str "failed"),
         ("error", Value.str ("LLM response failed: " ++
           pyStr (dictGetD llm_response.payload "error" Value.null)))]
    else
      create_response_message now message "CoordinatorAgent" "SUCCESS"
        [("status", Value.str "success"),
         ("query", query),
         ("response", dictGetD llm_response.payload "response" Value.null),
         ("sources", dictGetD llm_response.payload "sources" (Value.arr [])),
         ("context_chunks_used",
           dictGetD llm_response.payload "context_chunks_used" (Value.num 0)),
         ("workflow", Value.str "query_processing_complete")]

/-- Result of the external `DocumentParser.parse` capability
(document_parsers.py, an external collaborator per the spec): extracted
text, extra metadata, and `page_count` (already defaulted to 1 when the
parser reports none, per ingestion_agent.py line 114). -/
structure ParsedData where
  text : String
  metadata : List (String × Value)
  page_count : Int

/-- Python `str.lower`, characterwise. -/
def pyLower (s : String) : String :=
  String.mk (s.data.map Char.toLower)

/-- Python `str.endswith`. -/
def pyEndsWith (s suffix : String) : Bool :=
  List.isSuffixOf suffix.data s.data

/-- The extension dispatch of `_parse_document` (ingestion_agent.py 87-99):
it consults only the lower-cased file NAME, never the declared file type. -/
def parserTypeOf (file_name : String) : Option String :=
  if pyEndsWith (pyLower file_name) ".pdf" then some "pdf"
  else if pyEndsWith (pyLower file_name) ".pptx" then some "pptx"
  else if pyEndsWith (pyLower file_name) ".docx" then some "docx"
  else if pyEndsWith (pyLower file_name) ".csv" then some "csv"
  else if pyEndsWith (pyLower file_name) ".txt" ∨ pyEndsWith (pyLower file_name) ".md"
    then some "text"
  else none

/-- One chunk record rendered as the dict the Python code builds
(ingestion_agent.py 135-143; the uuid `id` key is omitted as elsewhere). -/
def chunkToValue (c : ChunkRec) : Value :=
  Value.obj
    [("text", Value.str c.text),
     ("source_file", Value.str c.source_file),
     ("chunk_index", Value.num (c.chunk_index : Int)),
     ("word_count", Value.num (c.word_count : Int)),
     ("start_word", Value.num (c.start_word : Int)),
     ("end_word", Value.num (c.end_word : Int))]

/-- `IngestionAgent._parse_document` (ingestion_agent.py 84-121), with the
external parse capability as an oracle (`Except.error e` models a parser
exception with message `e`).  Every failure is wrapped per line 121. -/
def parse_document (parse : Value → String → Except String ParsedData)
    (file_name : String) (file_content : Value) (file_type : Value) :
    Except String (String × List ChunkRec × List (String × Value)) :=
  match parserTypeOf file_name with
  | none => Except.error ("Failed to parse document " ++ file_name ++
      ": Unsupported file type: " ++ file_name)
  | some parser_type =>
    match parse file_content parser_type with
    | Except.error e =>
      Except.error ("Failed to parse document " ++ file_name ++ ": " ++ e)
    | Except.ok parsed =>
      let chunks := chunk_text parsed.text file_name 1000 200
      let baseMeta : List (String × Value) :=
        [("file_name", Value.str file_name),
         ("file_type", file_type),
         ("parser_type", Value.str parser_type),
         ("page_count", Value.num parsed.page_count),
         ("word_count", Value.num ((pySplitWs parsed.text).length : Int))]
      Except.ok (parsed.text, chunks,
        parsed.metadata.foldl (fun d kv => dictSet d kv.1 kv.2) baseMeta)

/-- One entry of `processed_documents` (ingestion_agent.py 54-61). -/
structure StoredDocument where
  id : String
  name : String
  type : Value
  content : String
  chunks : List ChunkRec
  metadata : List (String × Value)

/-- `IngestionAgent._process_document` (ingestion_agent.py 35-82).  The
fresh uuid4 is the oracle argument `doc_id`.  Returns the response message
together with the document record stored on success.  A truthy non-string
`file_name` raises `AttributeError` at `.lower()`, caught by the outer
`except` (modelled by the generic processing-failed error). -/
def process_document (now : String)
    (parse : Value → String → Except String ParsedData) (doc_id : String)
    (message : MCPMessage) : MCPMessage × Option StoredDocument :=
  let file_name := dictGetD message.payload "file_name" Value.null
  let file_content := dictGetD message.payload "file_content" Value.null
  let file_type := dictGetD message.payload "file_type" Value.null
  if pyTruthy file_name = false ∨ pyTruthy file_content = false then
    (create_error_message now message "IngestionAgent"
      "Missing required fields: file_name or file_content", none)
  else
    match file_name with
    | Value.str name =>
      match parse_document parse name file_content file_type with
      | Except.error e =>
        (create_error_message now message "IngestionAgent"
          ("Document processing failed: " ++ e), none)
      | Except.ok res =>
        (create_response_message now message "IngestionAgent" "DOCUMENT_PARSED"
          [("status", Value.str "success"),
           ("document_id", Value.str doc_id),
           ("file_name", Value.str name),
           ("chunks", Value.arr (res.2.1.map chunkToValue)),
           ("metadata", Value.obj res.2.2),
           ("total_chunks", Value.num (res.2.1.length : Int))],
         some
           { id := doc_id
             name := name
             type := file_type
             content := res.1
             chunks := res.2.1
             metadata := res.2.2 })
    | _ =>
      (create_error_message now message "IngestionAgent"
        ("Document processing failed: file_name is not a string"), none)

/-- A concrete two-record store used as a test fixture by witnesses. -/
def vsFixture : VectorStore :=
  { dimension := 1000
    vectors := [[(1 : ℝ), 0], [(0 : ℝ), 1]]
    metadata_store := [("a", [("x", Value.num 1)]), ("b", [])]
    id_to_index := [("a", 0), ("b", 1)]
    index_to_id := [(0, "a"), (1, "b")]
    next_index := 2 }

end RAG

namespace RAG

/-- Every element of the chunk loop output is the canonical chunk at offset
`i + step * j` with ordinal `idx + j`. -/
theorem chunkLoop_getElem? (words : List String) (src : String) (cs ov : Nat) :
    ∀ fuel i idx j, j < (chunkLoop words src cs ov fuel i idx).length →
      (chunkLoop words src cs ov fuel i idx)[j]? =
        some (mkChunk words src cs (i + (cs - ov) * j) (idx + j)) := by
  intro fuel
  induction fuel with
  | zero => intro i idx j h; simp [chunkLoop] at h
  | succ fuel ih =>
    intro i idx j h
    by_cases hi : i < words.length
    · by_cases hlast : words.length ≤ i + cs
      · have hres : chunkLoop words src cs ov (fuel + 1) i idx = [mkChunk words src cs i idx] := by
          simp [chunkLoop, hi, hlast]
        rw [hres] at h ⊢
        simp at h
        subst h
        simp
      · have hres : chunkLoop words src cs ov (fuel + 1) i idx =
            mkChunk words src cs i idx ::
              chunkLoop words src cs ov fuel (i + (cs - ov)) (idx + 1) := by
          simp [chunkLoop, hi, hlast]
        rw [hres] at h ⊢
        match j with
        | 0 => simp
        | j + 1 =>
          simp only [List.getElem?_cons_succ]
          rw [ih (i + (cs - ov)) (idx + 1) j (by simpa using h)]
          ring_nf
    · simp [chunkLoop, hi] at h

/-- The chunk loop always emits at least one chunk when started inside the
word sequence, its last chunk sits at the first offset `i + step * j` with
`offset + chunk_size >= len(words)`, and every earlier offset fails that
stopping test.  The fuel bound `len(words) <= i + step * fuel` is what the
callers establish. -/
theorem chunkLoop_length (words : List String) (src : String) (cs ov : Nat) :
    ∀ fuel i idx, i < words.length → words.length ≤ i + (cs - ov) * fuel →
      0 < (chunkLoop words src cs ov fuel i idx).length ∧
      words.length ≤ i + (cs - ov) * ((chunkLoop words src cs ov fuel i idx).length - 1) + cs ∧
      ∀ j, j + 1 < (chunkLoop words src cs ov fuel i idx).length →
        i + (cs - ov) * j + cs < words.length := by
  intro fuel
  induction fuel with
  | zero =>
    intro i idx hi hfuel
    omega
  | succ fuel ih =>
    intro i idx hi hfuel
    by_cases hlast : words.length ≤ i + cs
    · have hres : chunkLoop words src cs ov (fuel + 1) i idx = [mkChunk words src cs i idx] := by
        simp [chunkLoop, hi, hlast]
      rw [hres]
      refine ⟨by simp, by simpa using hlast, ?_⟩
      intro j hj
      simp at hj
    · have hres : chunkLoop words src cs ov (fuel + 1) i idx =
          mkChunk words src cs i idx ::
            chunkLoop words src cs ov fuel (i + (cs - ov)) (idx + 1) := by
        simp [chunkLoop, hi, hlast]
      push_neg at hlast
      have hstep : 0 < cs - ov := by
        by_contra hz
        have : cs - ov = 0 := by omega
        rw [this] at hfuel
        omega
      have hi' : i + (cs - ov) < words.length := by omega
      have hfuel' : words.length ≤ i + (cs - ov) + (cs - ov) * fuel := by
        have : (cs - ov) * (fuel + 1) = (cs - ov) + (cs - ov) * fuel := by ring
        omega
      obtain ⟨hpos, hstop, hmin⟩ := ih (i + (cs - ov)) (idx + 1) hi' hfuel'
      rw [hres]
      set m := (chunkLoop words src cs ov fuel (i + (cs - ov)) (idx + 1)).length with hm
      refine ⟨by simp, ?_, ?_⟩
      · have hms : (m + 1) - 1 = (m - 1) + 1 := by omega
        simp only [List.length_cons, hms]
        have : (cs - ov) * ((m - 1) + 1) = (cs - ov) + (cs - ov) * (m - 1) := by ring
        omega
      · intro j hj
        simp only [List.length_cons] at hj
        match j with
        | 0 => simpa using hlast
        | j + 1 =>
          have := hmin j (by omega)
          have hmul : (cs - ov) * (j + 1) = (cs - ov) + (cs - ov) * j := by ring
          omega

/-- Helper: full characterisation of `chunk_words` for the default
`chunk_size = 1000`, `overlap = 200` (step 800). -/
theorem chunk_words_default_spec (words : List String) (src : String) :
    (words = [] → chunk_words words src 1000 200 = []) ∧
    (words ≠ [] → 0 < (chunk_words words src 1000 200).length) ∧
    (∀ j, j < (chunk_words words src 1000 200).length →
      (chunk_words words src 1000 200)[j]? = some (mkChunk words src 1000 (800 * j) j)) ∧
    (words ≠ [] →
      words.length ≤ 800 * ((chunk_words words src 1000 200).length - 1) + 1000) ∧
    (∀ j, j + 1 < (chunk_words words src 1000 200).length →
      800 * j + 1000 < words.length) := by
  by_cases hw : words = []
  · subst hw
    refine ⟨fun _ => rfl, fun h => absurd rfl h, ?_, fun h => absurd rfl h, ?_⟩
    · intro j hj
      simp [chunk_words, chunkLoop] at hj
    · intro j hj
      simp [chunk_words, chunkLoop] at hj
  · have hlen : 0 < words.length := List.length_pos.mpr hw
    have hfuel : words.length ≤ 0 + (1000 - 200) * words.length := by
      have := Nat.le_mul_of_pos_left words.length (show 0 < 1000 - 200 by norm_num)
      omega
    obtain ⟨hpos, hstop, hmin⟩ :=
      chunkLoop_length words src 1000 200 words.length 0 0 hlen hfuel
    refine ⟨fun h => absurd h hw, fun _ => hpos, ?_, fun _ => by simpa using hstop, ?_⟩
    · intro j hj
      have := chunkLoop_getElem? words src 1000 200 words.length 0 0 j hj
      simpa using this
    · intro j hj
      have := hmin j hj
      omega

/-- C2: for every input text the chunker enumerates offsets with step
`chunk_size - overlap = 800` starting at 0; the `j`-th chunk has
`start_word = 800 * j`, `end_word = min(800 * j + 1000, total_words)` and
ordinal index `j`; the loop stops after emitting the chunk at the first
offset whose window reaches the end of the word sequence (so every earlier
offset satisfies `800 * j + 1000 < total_words`); and whitespace-only text
yields zero chunks. -/
theorem chunk_text_enumeration_spec (text src : String) :
    (pySplitWs text = [] → chunk_text text src 1000 200 = []) ∧
    (pySplitWs text ≠ [] → 0 < (chunk_text text src 1000 200).length) ∧
    (chunk_text text src 1000 200).map ChunkRec.start_word =
      (List.range (chunk_text text src 1000 200).length).map (fun j => 800 * j) ∧
    (chunk_text text src 1000 200).map ChunkRec.end_word =
      (List.range (chunk_text text src 1000 200).length).map
        (fun j => min (800 * j + 1000) (pySplitWs text).length) ∧
    (chunk_text text src 1000 200).map ChunkRec.chunk_index =
      List.range (chunk_text text src 1000 200).length ∧
    (pySplitWs text ≠ [] →
      (pySplitWs text).length ≤ 800 * ((chunk_text text src 1000 200).length - 1) + 1000) ∧
    (2 ≤ (chunk_text text src 1000 200).length →
      800 * ((chunk_text text src 1000 200).length - 2) + 1000 < (pySplitWs text).length) := by
  have hct : chunk_text text src 1000 200 = chunk_words (pySplitWs text) src 1000 200 := by
    by_cases hw : pySplitWs text = []
    · simp [chunk_text, chunk_words, hw, chunkLoop]
    · simp [chunk_text, List.isEmpty_iff, hw]
  obtain ⟨hemp, hpos, helem, hstop, hmin⟩ := chunk_words_default_spec (pySplitWs text) src
  rw [hct]
  set res := chunk_words (pySplitWs text) src 1000 200 with hres
  refine ⟨hemp, hpos, ?_, ?_, ?_, hstop, ?_⟩
  · apply List.ext_getElem?
    intro j
    by_cases hj : j < res.length
    · rw [List.getElem?_map, helem j hj, List.getElem?_map, List.getElem?_range hj]
      simp [mkChunk]
    · rw [List.getElem?_map, List.getElem?_eq_none (by omega), List.getElem?_map,
        List.getElem?_eq_none (by simpa using hj)]
      rfl
  · apply List.ext_getElem?
    intro j
    by_cases hj : j < res.length
    · rw [List.getElem?_map, helem j hj, List.getElem?_map, List.getElem?_range hj]
      simp [mkChunk]
    · rw [List.getElem?_map, List.getElem?_eq_none (by omega), List.getElem?_map,
        List.getElem?_eq_none (by simpa using hj)]
      rfl
  · apply List.ext_getElem?
    intro j
    by_cases hj : j < res.length
    · rw [List.getElem?_map, helem j hj, List.getElem?_range hj]
      simp [mkChunk]
    · rw [List.getElem?_map, List.getElem?_eq_none (by omega),
        List.getElem?_eq_none (by simpa using hj)]
      rfl
  · intro h2
    have := hmin (res.length - 2) (by omega)
    omega

/-- Witness for C2 at the concrete 3-word text "a b c": the hypotheses hold
and the chunker emits at least one chunk. -/
theorem chunk_text_enumeration_spec_witness :
    pySplitWs "a b c" ≠ [] ∧ 0 < (chunk_text "a b c" "f.txt" 1000 200).length :=
  ⟨by decide, (chunk_text_enumeration_spec "a b c" "f.txt").2.1 (by decide)⟩

/-- Helper: on any 2500-word input the default chunker emits exactly the
chunks at offsets 0, 800 and 1600 (the loop breaks at offset 1600, where
`1600 + 1000 = 2600 >= 2500`, before ever reaching offset 2400). -/
theorem chunk_words_2500 (words : List String) (src : String)
    (hlen : words.length = 2500) :
    chunk_words words src 1000 200 =
      [mkChunk words src 1000 0 0,
       mkChunk words src 1000 800 1,
       mkChunk words src 1000 1600 2] := by
  have hfuel : words.length ≤ 0 + (1000 - 200) * words.length := by omega
  obtain ⟨hpos, hstop, hmin⟩ :=
    chunkLoop_length words src 1000 200 words.length 0 0 (by omega) hfuel
  have hL : (chunk_words words src 1000 200).length = 3 := by
    show (chunkLoop words src 1000 200 words.length 0 0).length = 3
    set m := (chunkLoop words src 1000 200 words.length 0 0).length with hm
    have hub : m ≤ 3 := by
      by_contra hgt
      have := hmin 2 (by omega)
      omega
    have hlb : 3 ≤ m := by
      by_contra hlt
      have : words.length ≤ 0 + (1000 - 200) * (m - 1) + 1000 := hstop
      omega
    omega
  apply List.ext_getElem?
  intro j
  have helem : ∀ k, k < 3 →
      (chunk_words words src 1000 200)[k]? = some (mkChunk words src 1000 (800 * k) k) := by
    intro k hk
    have := chunkLoop_getElem? words src 1000 200 words.length 0 0 k
      (by rw [show (chunkLoop words src 1000 200 words.length 0 0).length =
        (chunk_words words src 1000 200).length from rfl, hL]; omega)
    simpa [chunk_words] using this
  match j with
  | 0 => simpa using helem 0 (by omega)
  | 1 => simpa using helem 1 (by omega)
  | 2 => simpa using helem 2 (by omega)
  | j + 3 =>
    rw [List.getElem?_eq_none (by omega), List.getElem?_eq_none (by simp)]

/-- C1 counterexample: on a concrete 2500-word input with `chunk_size = 1000`
and `overlap = 200` the chunker does NOT produce 4 chunks — the loop breaks
after emitting the chunk at offset 1600 (since `1600 + 1000 >= 2500`), so
offset 2400 is never processed. -/
theorem chunk_2500_words_not_four :
    (chunk_words (List.replicate 2500 "w") "doc.txt" 1000 200).length ≠ 4 := by
  rw [chunk_words_2500 (List.replicate 2500 "w") "doc.txt" (List.length_replicate 2500 "w")]
  simp only [List.length_cons, List.length_nil]
  omega

/-- C1 (amended): a 2500-word input with `chunk_size = 1000`, `overlap = 200`
yields exactly 3 chunks, with `start_word` offsets 0, 800, 1600 and
`end_word` offsets 1000, 1800, 2500. -/
theorem chunk_2500_words_amended :
    (chunk_words (List.replicate 2500 "w") "doc.txt" 1000 200).length = 3 ∧
    (chunk_words (List.replicate 2500 "w") "doc.txt" 1000 200).map ChunkRec.start_word =
      [0, 800, 1600] ∧
    (chunk_words (List.replicate 2500 "w") "doc.txt" 1000 200).map ChunkRec.end_word =
      [1000, 1800, 2500] := by
  rw [chunk_words_2500 (List.replicate 2500 "w") "doc.txt" (List.length_replicate 2500 "w")]
  refine ⟨rfl, ?_, ?_⟩
  · simp only [List.map_cons, List.map_nil, mkChunk, List.length_replicate]
  · simp only [List.map_cons, List.map_nil, mkChunk, List.length_replicate]
    norm_num


/-- Helper: appending a fresh binding and looking it up, when no earlier
binding carries the key. -/
theorem lookup_append_last {α β : Type} [BEq α] [LawfulBEq α] (k : α) (v : β) :
    ∀ d : List (α × β), (∀ p ∈ d, p.1 ≠ k) →
      List.lookup k (d ++ [(k, v)]) = some v := by
  intro d
  induction d with
  | nil => intro _; simp [List.lookup_cons]
  | cons p rest ih =>
    intro hne
    obtain ⟨a, b⟩ := p
    have hk' : (k == a) = false := by
      simp [Ne.symm (hne (a, b) (List.mem_cons_self _ _))]
    simp only [List.cons_append, List.lookup_cons, hk']
    exact ih (fun q hq => hne q (List.mem_cons_of_mem _ hq))

/-- Helper: looking up `k` after replacing every binding of `k` by `(k, v)`,
when some binding of `k` exists. -/
theorem lookup_map_set_self {α β : Type} [BEq α] [LawfulBEq α] (k : α) (v : β) :
    ∀ d : List (α × β), d.any (fun p => p.1 == k) = true →
      List.lookup k (d.map (fun p => if p.1 == k then (k, v) else p)) = some v := by
  intro d
  induction d with
  | nil => intro h; simp at h
  | cons p rest ih =>
    intro h
    obtain ⟨a, b⟩ := p
    by_cases hp : a = k
    · have hp' : (a == k) = true := by simp [hp]
      simp [List.lookup_cons, hp', hp]
    · have hp' : (a == k) = false := by simp [hp]
      have hk' : (k == a) = false := by simp [Ne.symm hp]
      simp only [List.any_cons, hp', Bool.false_or] at h
      simpa [List.lookup_cons, hp', hk'] using ih h

/-- Looking up the written key after `d[k] = v` yields `v`. -/
theorem dictGet?_dictSet_self {α β : Type} [BEq α] [LawfulBEq α]
    (d : List (α × β)) (k : α) (v : β) :
    dictGet? (dictSet d k v) k = some v := by
  unfold dictSet dictGet?
  by_cases h : d.any (fun p => p.1 == k) = true
  · rw [if_pos h]
    exact lookup_map_set_self k v d h
  · rw [if_neg h]
    refine lookup_append_last k v d ?_
    intro p hp hpk
    exact h (List.any_eq_true.mpr ⟨p, hp, by simp [hpk]⟩)

/-- After modifying the value at key `k` in place, looking up `k` sees the
modified value. -/
theorem lookup_map_modify_self {α β : Type} [BEq α] [LawfulBEq α]
    (l : List (α × β)) (k : α) (g : β → β) :
    List.lookup k (l.map (fun p => if p.1 == k then (p.1, g p.2) else p)) =
      (List.lookup k l).map g := by
  induction l with
  | nil => rfl
  | cons p rest ih =>
    obtain ⟨a, b⟩ := p
    by_cases hp : a = k
    · have hp' : (a == k) = true := by simp [hp]
      have hk' : (k == a) = true := by simp [hp.symm]
      simp [List.lookup_cons, hp', hk']
    · have hp' : (a == k) = false := by simp [hp]
      have hk' : (k == a) = false := by simp [Ne.symm hp]
      simpa [List.lookup_cons, hp', hk'] using ih

/-- Modifying the value at key `k` in place leaves every other lookup
unchanged. -/
theorem lookup_map_modify_other {α β : Type} [BEq α] [LawfulBEq α]
    (l : List (α × β)) (k other : α) (g : β → β) (hne : other ≠ k) :
    List.lookup other (l.map (fun p => if p.1 == k then (p.1, g p.2) else p)) =
      List.lookup other l := by
  induction l with
  | nil => rfl
  | cons p rest ih =>
    obtain ⟨a, b⟩ := p
    by_cases hp : a = k
    · have hp' : (a == k) = true := by simp [hp]
      have ho' : (other == a) = false := by simp [hp ▸ hne]
      simp [List.lookup_cons, hp', ho', ih]
    · have hp' : (a == k) = false := by simp [hp]
      by_cases ho : other = a
      · have ho' : (other == a) = true := by simp [ho]
        simp [List.lookup_cons, hp', ho']
      · have ho' : (other == a) = false := by simp [ho]
        simp [List.lookup_cons, hp', ho', ih]

/-- If no entry carries key `k`, the in-place modification at `k` is the
identity. -/
theorem map_modify_of_not_mem {α β : Type} [BEq α] [LawfulBEq α] (k : α) (g : β → β) :
    ∀ l : List (α × β), (∀ p ∈ l, p.1 ≠ k) →
      l.map (fun p => if p.1 == k then (p.1, g p.2) else p) = l := by
  intro l
  induction l with
  | nil => intro _; rfl
  | cons p rest ih =>
    intro hk
    have hp' : (p.1 == k) = false := by simp [hk p (List.mem_cons_self p rest)]
    simp only [List.map_cons, hp', Bool.false_eq_true, if_false]
    rw [ih (fun q hq => hk q (List.mem_cons_of_mem p hq))]

/-- Re-running `d[k] = v` changes nothing. -/
theorem dictSet_idem {α β : Type} [BEq α] [LawfulBEq α]
    (d : List (α × β)) (k : α) (v : β) :
    dictSet (dictSet d k v) k v = dictSet d k v := by
  unfold dictSet
  by_cases h : d.any (fun p => p.1 == k) = true
  · simp only [h, if_true]
    have hany : (d.map (fun p => if p.1 == k then (k, v) else p)).any
        (fun p => p.1 == k) = true := by
      rcases List.any_eq_true.mp h with ⟨p, hp, hpk⟩
      refine List.any_eq_true.mpr ⟨(k, v), ?_, by simp⟩
      exact List.mem_map.mpr ⟨p, hp, by simp [hpk]⟩
    simp only [hany, if_true, List.map_map]
    apply List.map_congr_left
    intro p _
    by_cases hp : p.1 = k
    · have hp' : (p.1 == k) = true := by simp [hp]
      simp [Function.comp, hp']
    · have hp' : (p.1 == k) = false := by simp [hp]
      simp [Function.comp, hp']
  · rw [if_neg h]
    have hany : (d ++ [(k, v)]).any (fun p => p.1 == k) = true :=
      List.any_eq_true.mpr ⟨(k, v), by simp, by simp⟩
    rw [if_pos hany, List.map_append]
    have hd : d.map (fun p => if p.1 == k then (k, v) else p) = d := by
      have hcong : ∀ p ∈ d, (if p.1 == k then (k, v) else p) = id p := by
        intro p hp
        have hp' : (p.1 == k) = false := by
          rcases Bool.eq_false_or_eq_true (p.1 == k) with ht | hf
          · exact absurd (List.any_eq_true.mpr ⟨p, hp, ht⟩) h
          · exact hf
        simp [hp']
      rw [List.map_congr_left hcong, List.map_id]
    simp [hd]

/-- Soft-deleting the (unique, not-yet-flagged) entry of `id` drops the
count of entries whose metadata lacks a truthy `deleted` flag by exactly
one. -/
theorem active_count_after_soft_delete (id : String) :
    ∀ l : List (String × List (String × Value)), (l.map Prod.fst).Nodup →
      ∀ md, List.lookup id l = some md →
        pyTruthy (dictGetD md "deleted" (Value.bool false)) = false →
        ((l.map (fun p => if p.1 == id then
            (p.1, dictSet p.2 "deleted" (Value.bool true)) else p)).filter
          (fun p => !pyTruthy (dictGetD p.2 "deleted" (Value.bool false)))).length + 1 =
        (l.filter
          (fun p => !pyTruthy (dictGetD p.2 "deleted" (Value.bool false)))).length := by
  intro l
  induction l with
  | nil => intro _ md hmem _; simp at hmem
  | cons p rest ih =>
    intro hnodup md hmem hflag
    obtain ⟨a, b⟩ := p
    rw [show List.map Prod.fst ((a, b) :: rest) = a :: rest.map Prod.fst from rfl] at hnodup
    have hnd := List.nodup_cons.mp hnodup
    by_cases hp : a = id
    · subst hp
      have hb : b = md := by simpa [List.lookup_cons] using hmem
      subst hb
      have hnot : ∀ q ∈ rest, q.1 ≠ a := by
        intro q hq hqa
        exact hnd.1 (hqa ▸ List.mem_map.mpr ⟨q, hq, rfl⟩)
      have hrest : rest.map (fun p => if p.1 == a then
          (p.1, dictSet p.2 "deleted" (Value.bool true)) else p) = rest :=
        map_modify_of_not_mem a (fun x => dictSet x "deleted" (Value.bool true)) rest hnot
      have hnew : pyTruthy (dictGetD (dictSet b "deleted" (Value.bool true))
          "deleted" (Value.bool false)) = true := by
        unfold dictGetD
        have hs := dictGet?_dictSet_self b "deleted" (Value.bool true)
        unfold dictGet? at hs
        rw [hs]
        rfl
      have hmapcons : List.map (fun p => if p.1 == a then
            (p.1, dictSet p.2 "deleted" (Value.bool true)) else p) ((a, b) :: rest) =
          (a, dictSet b "deleted" (Value.bool true)) :: rest := by
        rw [List.map_cons, hrest]
        simp
      rw [hmapcons]
      simp [List.filter_cons, hnew, hflag]
    · have hp' : (a == id) = false := by simp [hp]
      have hid' : (id == a) = false := by simp [Ne.symm hp]
      have hmem' : List.lookup id rest = some md := by
        simpa [List.lookup_cons, hid'] using hmem
      have hrec := ih hnd.2 md hmem' hflag
      have hmapcons : List.map (fun p => if p.1 == id then
            (p.1, dictSet p.2 "deleted" (Value.bool true)) else p) ((a, b) :: rest) =
          (a, b) :: List.map (fun p => if p.1 == id then
            (p.1, dictSet p.2 "deleted" (Value.bool true)) else p) rest := by
        rw [List.map_cons]
        simp [hp']
      rw [hmapcons, List.filter_cons, List.filter_cons]
      cases hc : pyTruthy (dictGetD b "deleted" (Value.bool false)) with
      | true =>
        simp only [hc, Bool.not_true, Bool.false_eq_true, if_false]
        exact hrec
      | false =>
        simp only [hc, Bool.not_false, if_true, List.length_cons]
        omega

/-- C5: deleting a present, not-yet-flagged id returns `True`, rewrites only
that id's metadata — setting its `deleted` flag — and leaves the stored
vectors, both id/row mappings, the dimension, `next_index`, every other
metadata record, and `total_vectors` unchanged; `active_vectors` drops by
exactly one; and `search` results are completely unchanged, so a subsequent
search may still return the deleted id. -/
theorem remove_vector_soft_delete (st : VectorStore) (id other : String)
    (md : List (String × Value)) (q : Vec) (k : Nat)
    (hnodup : (st.metadata_store.map Prod.fst).Nodup)
    (hmem : dictGet? st.metadata_store id = some md)
    (hflag : pyTruthy (dictGetD md "deleted" (Value.bool false)) = false)
    (hother : other ≠ id) :
    (st.remove_vector id).1 = true ∧
    (st.remove_vector id).2.vectors = st.vectors ∧
    (st.remove_vector id).2.id_to_index = st.id_to_index ∧
    (st.remove_vector id).2.index_to_id = st.index_to_id ∧
    (st.remove_vector id).2.next_index = st.next_index ∧
    (st.remove_vector id).2.dimension = st.dimension ∧
    dictGet? (st.remove_vector id).2.metadata_store id =
      some (dictSet md "deleted" (Value.bool true)) ∧
    dictGet? (st.remove_vector id).2.metadata_store other =
      dictGet? st.metadata_store other ∧
    (st.remove_vector id).2.active_vectors + 1 = st.active_vectors ∧
    (st.remove_vector id).2.total_vectors = st.total_vectors ∧
    (st.remove_vector id).2.search q k = st.search q k := by
  have hsome : (dictGet? st.metadata_store id).isSome := by rw [hmem]; rfl
  have hrw : st.remove_vector id =
      (true,
       { st with
         metadata_store := st.metadata_store.map
           (fun p => if p.1 == id then
              (p.1, dictSet p.2 "deleted" (Value.bool true)) else p) }) := by
    unfold VectorStore.remove_vector
    rw [if_pos hsome]
  rw [hrw]
  refine ⟨rfl, rfl, rfl, rfl, rfl, rfl, ?_, ?_, ?_, rfl, rfl⟩
  · show List.lookup id _ = _
    rw [lookup_map_modify_self st.metadata_store id
      (fun x => dictSet x "deleted" (Value.bool true))]
    rw [show List.lookup id st.metadata_store = some md from hmem]
    rfl
  · exact lookup_map_modify_other st.metadata_store id other
      (fun x => dictSet x "deleted" (Value.bool true)) hother
  · exact active_count_after_soft_delete id st.metadata_store hnodup md hmem hflag

/-- Witness for C5 on the two-record fixture: all hypotheses hold for id "a"
and the conclusion follows by the theorem. -/
theorem remove_vector_soft_delete_witness :
    ((vsFixture.metadata_store.map Prod.fst).Nodup ∧
     dictGet? vsFixture.metadata_store "a" = some [("x", Value.num 1)] ∧
     pyTruthy (dictGetD [("x", Value.num 1)] "deleted" (Value.bool false)) = false ∧
     "b" ≠ "a") ∧
    ((vsFixture.remove_vector "a").1 = true ∧
     (vsFixture.remove_vector "a").2.vectors = vsFixture.vectors ∧
     (vsFixture.remove_vector "a").2.id_to_index = vsFixture.id_to_index ∧
     (vsFixture.remove_vector "a").2.index_to_id = vsFixture.index_to_id ∧
     (vsFixture.remove_vector "a").2.next_index = vsFixture.next_index ∧
     (vsFixture.remove_vector "a").2.dimension = vsFixture.dimension ∧
     dictGet? (vsFixture.remove_vector "a").2.metadata_store "a" =
       some (dictSet [("x", Value.num 1)] "deleted" (Value.bool true)) ∧
     dictGet? (vsFixture.remove_vector "a").2.metadata_store "b" =
       dictGet? vsFixture.metadata_store "b" ∧
     (vsFixture.remove_vector "a").2.active_vectors + 1 = vsFixture.active_vectors ∧
     (vsFixture.remove_vector "a").2.total_vectors = vsFixture.total_vectors ∧
     (vsFixture.remove_vector "a").2.search [] 5 = vsFixture.search [] 5) :=
  ⟨⟨by decide, rfl, rfl, by decide⟩,
   remove_vector_soft_delete vsFixture "a" "b" [("x", Value.num 1)] [] 5
     (by decide) rfl rfl (by decide)⟩

/-- C9: `remove_vector` returns `True` exactly when the id has a metadata
record — whether or not it is already flagged deleted — and deleting the
same id a second time returns the same result and leaves the whole store
state unchanged (deletion is idempotent, and `active_vectors` does not
decrease again). -/
theorem remove_vector_idempotent (st : VectorStore) (id : String) :
    (st.remove_vector id).1 = (dictGet? st.metadata_store id).isSome ∧
    (st.remove_vector id).2.remove_vector id = st.remove_vector id := by
  by_cases h : (dictGet? st.metadata_store id).isSome
  · have hrw : st.remove_vector id =
        (true,
         { st with
           metadata_store := st.metadata_store.map
             (fun p => if p.1 == id then
                (p.1, dictSet p.2 "deleted" (Value.bool true)) else p) }) := by
      unfold VectorStore.remove_vector
      rw [if_pos h]
    have h2 : (dictGet? (st.metadata_store.map
        (fun p => if p.1 == id then
          (p.1, dictSet p.2 "deleted" (Value.bool true)) else p)) id).isSome := by
      show (List.lookup id _).isSome
      rw [lookup_map_modify_self st.metadata_store id
        (fun x => dictSet x "deleted" (Value.bool true))]
      rcases Option.isSome_iff_exists.mp h with ⟨v, hv⟩
      rw [show List.lookup id st.metadata_store = some v from hv]
      rfl
    have hms : (st.metadata_store.map
          (fun p => if p.1 == id then
            (p.1, dictSet p.2 "deleted" (Value.bool true)) else p)).map
          (fun p => if p.1 == id then
            (p.1, dictSet p.2 "deleted" (Value.bool true)) else p) =
        st.metadata_store.map
          (fun p => if p.1 == id then
            (p.1, dictSet p.2 "deleted" (Value.bool true)) else p) := by
      rw [List.map_map]
      apply List.map_congr_left
      intro p _
      by_cases hp : p.1 = id
      · have hp' : (p.1 == id) = true := by simp [hp]
        simp [Function.comp, hp', dictSet_idem]
      · have hp' : (p.1 == id) = false := by simp [hp]
        simp [Function.comp, hp']
    constructor
    · rw [hrw]
      exact h.symm
    · rw [hrw]
      show VectorStore.remove_vector _ id = _
      unfold VectorStore.remove_vector
      rw [if_pos h2]
      have hfinal : (true,
          ({ st with
             metadata_store := (st.metadata_store.map
               (fun p => if p.1 == id then
                 (p.1, dictSet p.2 "deleted" (Value.bool true)) else p)).map
               (fun p => if p.1 == id then
                 (p.1, dictSet p.2 "deleted" (Value.bool true)) else p) } :
            VectorStore)) =
          (true,
          ({ st with
             metadata_store := st.metadata_store.map
               (fun p => if p.1 == id then
                 (p.1, dictSet p.2 "deleted" (Value.bool true)) else p) } :
            VectorStore)) := by
        rw [hms]
      exact hfinal
  · have hrw : st.remove_vector id = (false, st) := by
      unfold VectorStore.remove_vector
      rw [if_neg h]
    have hfalse : (dictGet? st.metadata_store id).isSome = false :=
      Bool.eq_false_iff.mpr h
    constructor
    · rw [hrw, hfalse]
    · rw [hrw]
      exact hrw

/-- Normalizing a vector of non-zero norm yields a unit-norm vector. -/
theorem l2norm_normalizeVec (v : Vec) (h : l2norm v ≠ 0) :
    l2norm (normalizeVec v) = 1 := by
  have hS : 0 ≤ (v.map (fun x => x * x)).sum := by
    apply List.sum_nonneg
    intro x hx
    rcases List.mem_map.mp hx with ⟨y, _, rfl⟩
    exact mul_self_nonneg y
  have hn2 : l2norm v ^ 2 = (v.map (fun x => x * x)).sum := Real.sq_sqrt hS
  have hSne : (v.map (fun x => x * x)).sum ≠ 0 := by
    intro h0
    exact h (by unfold l2norm; rw [h0, Real.sqrt_zero])
  have hstart : l2norm (normalizeVec v) =
      Real.sqrt (((v.map (fun x => x / l2norm v)).map (fun x => x * x)).sum) := rfl
  rw [hstart, List.map_map]
  have hfun : ((fun x => x * x) ∘ fun x => x / l2norm v) =
      fun x => (x * x) * (1 / l2norm v ^ 2) := by
    funext x
    simp only [Function.comp_apply]
    rw [pow_two, mul_one_div, div_mul_div_comm]
  rw [hfun, List.sum_map_mul_right, hn2, mul_one_div, div_self hSne, Real.sqrt_one]

/-- The FAISS search model returns its hits sorted non-increasing by
score. -/
theorem faissSearch_pairwise (rows : List Vec) (q : Vec) (k : Nat) :
    (faissSearch rows q k).Pairwise (fun (a b : Nat × ℝ) => b.2 ≤ a.2) := by
  unfold faissSearch
  apply List.Pairwise.sublist (List.take_sublist _ _)
  have hsorted := @List.sorted_mergeSort (Nat × ℝ)
    (fun (a b : Nat × ℝ) => decide (b.2 ≤ a.2))
    (fun a b c hab hbc => by
      simp only [decide_eq_true_eq] at hab hbc ⊢
      exact le_trans hbc hab)
    (fun a b => by
      simp only [Bool.or_eq_true, decide_eq_true_eq]
      exact le_total b.2 a.2)
    ((List.range rows.length).zip (rows.map (fun v => dot q v)))
  exact hsorted.imp (fun h => by simpa using h)

/-- C4: every inserted vector of non-zero norm is stored L2-normalized (unit
norm), a zero-norm vector is stored unchanged, and for every query `search`
returns at most `top_k` results sorted non-increasing by similarity score. -/
theorem add_vector_normalized_and_search_sorted (st : VectorStore)
    (id : String) (v : Vec) (md : List (String × Value)) (q : Vec) (k : Nat) :
    (∃ w, (st.add_vector id v md).vectors = st.vectors ++ [w] ∧
      (l2norm v ≠ 0 → l2norm w = 1) ∧
      (l2norm v = 0 → w = v)) ∧
    (st.search q k).length ≤ k ∧
    (st.search q k).Pairwise (fun a b => b.2 ≤ a.2) := by
  refine ⟨⟨if 0 < l2norm v then normalizeVec v else v, rfl, ?_, ?_⟩, ?_, ?_⟩
  · intro hne
    have hpos : 0 < l2norm v := lt_of_le_of_ne (Real.sqrt_nonneg _) (Ne.symm hne)
    rw [if_pos hpos]
    exact l2norm_normalizeVec v hne
  · intro hz
    rw [if_neg (by rw [hz]; exact lt_irrefl 0)]
  · unfold VectorStore.search
    by_cases hn : st.vectors.length = 0
    · rw [if_pos hn]
      simp
    · rw [if_neg hn]
      refine le_trans (List.length_filterMap_le _ _) ?_
      unfold faissSearch
      refine le_trans (List.length_take_le _ _) ?_
      exact min_le_left _ _
  · unfold VectorStore.search
    by_cases hn : st.vectors.length = 0
    · rw [if_pos hn]
      simp
    · rw [if_neg hn]
      refine List.Pairwise.filterMap _
        (fun a b hab c hc d hd => ?_)
        (faissSearch_pairwise st.vectors
          (if 0 < l2norm q then normalizeVec q else q)
          (min k st.vectors.length))
      rcases Option.map_eq_some'.mp hc with ⟨x, hx, rfl⟩
      rcases Option.map_eq_some'.mp hd with ⟨y, hy, rfl⟩
      simpa using hab

/-- Witness for C4: inserting the vector (3, 4) — whose norm 5 is non-zero —
into the two-record fixture, and searching it with query (1, 0), top_k 5. -/
theorem add_vector_normalized_and_search_sorted_witness :
    l2norm [(3 : ℝ), 4] ≠ 0 ∧
    ((∃ w, (vsFixture.add_vector "c" [(3 : ℝ), 4] []).vectors =
        vsFixture.vectors ++ [w] ∧
        (l2norm [(3 : ℝ), 4] ≠ 0 → l2norm w = 1) ∧
        (l2norm [(3 : ℝ), 4] = 0 → w = [(3 : ℝ), 4])) ∧
      (vsFixture.search [(1 : ℝ), 0] 5).length ≤ 5 ∧
      (vsFixture.search [(1 : ℝ), 0] 5).Pairwise (fun a b => b.2 ≤ a.2)) := by
  have hnz : l2norm [(3 : ℝ), 4] ≠ 0 := by
    unfold l2norm
    rw [Real.sqrt_ne_zero']
    norm_num
  exact ⟨hnz,
    add_vector_normalized_and_search_sorted vsFixture "c" [(3 : ℝ), 4] [] [(1 : ℝ), 0] 5⟩

/-- A decimal digit character decodes back to its value. -/
theorem digitVal_digitChar (d : Nat) (hd : d < 10) :
    digitVal (Nat.digitChar d) = d := by
  interval_cases d <;> decide

/-- `Nat.digitChar` of a decimal digit is a digit character. -/
theorem isDigit_digitChar (d : Nat) (hd : d < 10) :
    (Nat.digitChar d).isDigit = true := by
  interval_cases d <;> decide

/-- Every character of a printed natural number is a decimal digit. -/
theorem printNatChars_all_digits (n : Nat) :
    ∀ c ∈ printNatChars n, c.isDigit = true := by
  intro c hc
  unfold printNatChars at hc
  by_cases h : n = 0
  · rw [if_pos h] at hc
    simp at hc
    subst hc
    decide
  · rw [if_neg h] at hc
    rcases List.mem_map.mp (List.mem_reverse.mp hc) with ⟨d, hd, rfl⟩
    exact isDigit_digitChar d (Nat.digits_lt_base (by norm_num) hd)

/-- A printed natural number is never empty. -/
theorem printNatChars_ne_nil (n : Nat) : printNatChars n ≠ [] := by
  unfold printNatChars
  by_cases h : n = 0
  · rw [if_pos h]; simp
  · rw [if_neg h]
    simp only [ne_eq, List.reverse_eq_nil_iff, List.map_eq_nil_iff]
    exact Nat.digits_ne_nil_iff_ne_zero.mpr h

/-- Folding the decimal accumulator over a big-endian digit rendering. -/
theorem foldl_digits_eq (acc : Nat) :
    ∀ ds : List Nat, (∀ d ∈ ds, d < 10) →
      ((ds.map Nat.digitChar).reverse).foldl (fun a c => a * 10 + digitVal c) acc =
        acc * 10 ^ ds.length + Nat.ofDigits 10 ds := by
  intro ds
  induction ds with
  | nil => intro _; simp
  | cons d ds ih =>
    intro hall
    have hrev : ((d :: ds).map Nat.digitChar).reverse =
        (ds.map Nat.digitChar).reverse ++ [Nat.digitChar d] := by
      simp
    rw [hrev, List.foldl_append]
    simp only [List.foldl_cons, List.foldl_nil]
    rw [ih (fun x hx => hall x (List.mem_cons_of_mem d hx)),
      digitVal_digitChar d (hall d (List.mem_cons_self d ds)),
      Nat.ofDigits_cons]
    simp only [List.length_cons, pow_succ]
    ring

/-- Parsing a printed natural number recovers it. -/
theorem parseNatChars_printNatChars (n : Nat) :
    parseNatChars (printNatChars n) = n := by
  unfold parseNatChars printNatChars
  by_cases h : n = 0
  · subst h; decide
  · rw [if_neg h]
    have := foldl_digits_eq 0 (Nat.digits 10 n)
      (fun d hd => Nat.digits_lt_base (by norm_num) hd)
    simpa [Nat.ofDigits_digits] using this

/-- `takeWhile` over a digit run followed by a non-digit boundary. -/
theorem takeWhile_append_all {p : Char → Bool} :
    ∀ ds rest : List Char, (∀ d ∈ ds, p d = true) →
      (∀ c, rest.head? = some c → p c = false) →
      (ds ++ rest).takeWhile p = ds := by
  intro ds
  induction ds with
  | nil =>
    intro rest _ hrest
    cases rest with
    | nil => rfl
    | cons c r => simp [List.takeWhile_cons, hrest c rfl]
  | cons d ds ih =>
    intro rest hall hrest
    simp only [List.cons_append, List.takeWhile_cons,
      hall d (List.mem_cons_self d ds), if_true]
    rw [ih rest (fun x hx => hall x (List.mem_cons_of_mem d hx)) hrest]

/-- Parsing a printed escaped string body recovers the characters and leaves
exactly the remainder after the closing quote. -/
theorem parseJStrChars_print (cs : List Char) :
    ∀ rest : List Char,
      parseJStrProj ((cs.map escChar).flatten ++ ('"' :: rest)) = some (cs, rest) := by
  induction cs with
  | nil =>
    intro rest
    rw [List.map_nil, List.flatten_nil, List.nil_append, parseJStrProj,
      parseJStrChars.eq_def]
    simp
  | cons c cs ih =>
    intro rest
    obtain ⟨⟨cs2, ⟨rest2, hlen⟩⟩, hx, hproj⟩ := Option.map_eq_some'.mp (ih rest)
    simp only [Prod.mk.injEq] at hproj
    obtain ⟨h1, h2⟩ := hproj
    subst h1
    subst h2
    by_cases hc : c = '"' ∨ c = '\\'
    · simp only [List.map_cons, List.flatten_cons, escChar, if_pos hc,
        List.cons_append, List.append_assoc]
      rw [parseJStrProj, parseJStrChars.eq_def]
      simp only [List.nil_append]
      simp [hc, hx]
    · push_neg at hc
      simp only [List.map_cons, List.flatten_cons, escChar,
        if_neg (show ¬ (c = '"' ∨ c = '\\') by tauto), List.cons_append,
        List.singleton_append]
      rw [parseJStrProj, parseJStrChars.eq_def]
      simp [hc.1, hc.2, hx]

/-- Decimal digit characters differ from every token character the parser
dispatches on. -/
theorem isDigit_not_special (c : Char) (h : c.isDigit = true) :
    c ≠ 'n' ∧ c ≠ 't' ∧ c ≠ 'f' ∧ c ≠ '"' ∧ c ≠ '[' ∧ c ≠ '\x7b' ∧ c ≠ '-' ∧
    c ≠ ']' ∧ c ≠ '\x7d' ∧ c ≠ ',' ∧ c ≠ ':' := by
  refine ⟨?_, ?_, ?_, ?_, ?_, ?_, ?_, ?_, ?_, ?_, ?_⟩ <;>
    (intro e; rw [e] at h; exact absurd h (by decide))

/-- A printed integer starts with a minus sign or a digit. -/
theorem printInt_head (n : Int) :
    ∃ c r, printInt n = c :: r ∧ (c = '-' ∨ c.isDigit = true) := by
  unfold printInt
  by_cases h : n < 0
  · rw [if_pos h]
    exact ⟨'-', printNatChars n.natAbs, rfl, Or.inl rfl⟩
  · rw [if_neg h]
    rcases hpn : printNatChars n.natAbs with _ | ⟨c, r⟩
    · exact absurd hpn (printNatChars_ne_nil _)
    · refine ⟨c, r, rfl, Or.inr ?_⟩
      exact printNatChars_all_digits _ c (by rw [hpn]; exact List.mem_cons_self c r)

/-- Parsing a printed integer at a non-digit boundary recovers it. -/
theorem parseValue_print_num (n : Int) (rest : List Char)
    (hrest : ∀ c, rest.head? = some c → c.isDigit = false) :
    parseValueProj (printInt n ++ rest) = some (Value.num n, rest) := by
  by_cases hneg : n < 0
  · rw [printInt, if_pos hneg, List.cons_append, parseValueProj, parseValue.eq_def]
    have htw : (printNatChars n.natAbs ++ rest).takeWhile Char.isDigit =
        printNatChars n.natAbs :=
      takeWhile_append_all _ _ (printNatChars_all_digits _) hrest
    have hne : (printNatChars n.natAbs).isEmpty = false := by
      rcases hpn : printNatChars n.natAbs with _ | ⟨c, r⟩
      · exact absurd hpn (printNatChars_ne_nil _)
      · rfl
    simp only [htw]
    simp [hne, parseNatChars_printNatChars, List.drop_left,
      Int.ofNat_natAbs_of_nonpos (le_of_lt hneg)]
  · rcases hpn : printNatChars n.natAbs with _ | ⟨c, ds⟩
    · exact absurd hpn (printNatChars_ne_nil _)
    have hd : c.isDigit = true :=
      printNatChars_all_digits _ c (by rw [hpn]; exact List.mem_cons_self c ds)
    have hds : ∀ x ∈ ds, x.isDigit = true := fun x hx =>
      printNatChars_all_digits _ x (by rw [hpn]; exact List.mem_cons_of_mem c hx)
    obtain ⟨hn1, hn2, hn3, hn4, hn5, hn6, hn7, _⟩ := isDigit_not_special c hd
    rw [printInt, if_neg hneg, hpn, List.cons_append, parseValueProj,
      parseValue.eq_def]
    have htw : (ds ++ rest).takeWhile Char.isDigit = ds :=
      takeWhile_append_all _ _ hds hrest
    simp only [htw]
    have hval : parseNatChars (c :: ds) = n.natAbs := by
      rw [← hpn]; exact parseNatChars_printNatChars _
    simp [hn1, hn2, hn3, hn4, hn5, hn6, hn7, hd, hval, List.drop_left,
      Int.natAbs_of_nonneg (not_lt.mp hneg)]

/-- A printed value never starts with a closing bracket. -/
theorem printValue_head_spec (v : Value) :
    ∃ c r, printValue v = c :: r ∧ c ≠ ']' := by
  cases v with
  | null => exact ⟨'n', ['u', 'l', 'l'], by simp [printValue], by decide⟩
  | bool b =>
    cases b with
    | true => exact ⟨'t', ['r', 'u', 'e'], by simp [printValue], by decide⟩
    | false => exact ⟨'f', ['a', 'l', 's', 'e'], by simp [printValue], by decide⟩
  | num n =>
    obtain ⟨c, r, hcr, hc⟩ := printInt_head n
    refine ⟨c, r, by simp [printValue, hcr], ?_⟩
    rcases hc with rfl | hd
    · decide
    · exact (isDigit_not_special c hd).2.2.2.2.2.2.2.1
  | str s =>
    exact ⟨'"', (s.data.map escChar).flatten ++ ['"'],
      by simp [printValue, printJString], by decide⟩
  | arr vs => exact ⟨'[', printElems vs, by simp [printValue], by decide⟩
  | obj fs => exact ⟨'\x7b', printMembers fs, by simp [printValue], by decide⟩

/-- An array continuation starts with a comma or a closing bracket — never a
digit, so it safely terminates a printed number. -/
theorem printElemsTail_head (vs : List Value) :
    ∃ c r, printElemsTail vs = c :: r ∧ c.isDigit = false := by
  cases vs with
  | nil => exact ⟨']', [], by simp [printElemsTail], by decide⟩
  | cons v vs =>
    exact ⟨',', printValue v ++ printElemsTail vs, by simp [printElemsTail], by decide⟩

/-- An object continuation starts with a comma or a closing brace — never a
digit. -/
theorem printMembersTail_head (fs : List (String × Value)) :
    ∃ c r, printMembersTail fs = c :: r ∧ c.isDigit = false := by
  cases fs with
  | nil => exact ⟨'\x7d', [], by simp [printMembersTail], by decide⟩
  | cons f fs =>
    obtain ⟨k, v⟩ := f
    exact ⟨',', printJString k ++ (':' :: (printValue v ++ printMembersTail fs)),
      by simp [printMembersTail], by decide⟩

/-- Inverting a projected parse result: the strongly-typed parser returned
the same value with the remainder packaged with its length bound. -/
theorem projParse_inv {α : Type} {l : List Char}
    (o : Option (α × {r : List Char // r.length < l.length}))
    {a : α} {r : List Char}
    (h : o.map (fun p => (p.1, p.2.val)) = some (a, r)) :
    ∃ hlen : r.length < l.length, o = some (a, ⟨r, hlen⟩) := by
  rcases o with _ | ⟨b, ⟨rb, hb⟩⟩
  · simp at h
  · simp at h
    obtain ⟨h1, h2⟩ := h
    subst h1
    subst h2
    exact ⟨hb, rfl⟩

mutual
/-- Parsing a printed value at a non-digit boundary recovers it and leaves
exactly the remainder. -/
theorem parseValue_print (v : Value) :
    ∀ rest : List Char, (∀ c, rest.head? = some c → c.isDigit = false) →
      parseValueProj (printValue v ++ rest) = some (v, rest) := by
  cases v with
  | null =>
    intro rest _
    rw [show printValue Value.null = ['n', 'u', 'l', 'l'] from by simp [printValue]]
    rw [parseValueProj, parseValue.eq_def]
    simp
  | bool b =>
    intro rest _
    cases b with
    | true =>
      rw [show printValue (Value.bool true) = ['t', 'r', 'u', 'e'] from by
        simp [printValue]]
      rw [parseValueProj, parseValue.eq_def]
      simp
    | false =>
      rw [show printValue (Value.bool false) = ['f', 'a', 'l', 's', 'e'] from by
        simp [printValue]]
      rw [parseValueProj, parseValue.eq_def]
      simp
  | num n =>
    intro rest hrest
    rw [show printValue (Value.num n) = printInt n from by simp [printValue]]
    exact parseValue_print_num n rest hrest
  | str s =>
    intro rest _
    have hpr : printValue (Value.str s) ++ rest =
        '"' :: ((s.data.map escChar).flatten ++ ('"' :: rest)) := by
      simp [printValue, printJString]
    obtain ⟨hlen, hx⟩ := projParse_inv _ (parseJStrChars_print s.data rest)
    rw [hpr, parseValueProj, parseValue.eq_def]
    simp [hx, show String.mk s.data = s from by cases s; rfl]
  | arr vs =>
    intro rest _
    have hpr : printValue (Value.arr vs) ++ rest = '[' :: (printElems vs ++ rest) := by
      simp [printValue]
    obtain ⟨hlen, hx⟩ := projParse_inv _ (parseElems_print vs rest)
    rw [hpr, parseValueProj, parseValue.eq_def]
    simp [hx]
  | obj fs =>
    intro rest _
    have hpr : printValue (Value.obj fs) ++ rest =
        '\x7b' :: (printMembers fs ++ rest) := by
      simp [printValue]
    obtain ⟨hlen, hx⟩ := projParse_inv _ (parseMembers_print fs rest)
    rw [hpr, parseValueProj, parseValue.eq_def]
    simp [hx]
termination_by sizeOf v
/-- Parsing printed array contents recovers the elements. -/
theorem parseElems_print (vs : List Value) :
    ∀ rest : List Char,
      parseElemsProj (printElems vs ++ rest) = some (vs, rest) := by
  cases vs with
  | nil =>
    intro rest
    rw [show printElems [] = [']'] from by simp [printElems]]
    rw [parseElemsProj, parseElems.eq_def]
    simp
  | cons v vs =>
    intro rest
    obtain ⟨ct, rt, htl, hdt⟩ := printElemsTail_head vs
    have hsafe : ∀ c, (printElemsTail vs ++ rest).head? = some c →
        c.isDigit = false := by
      intro c hc
      rw [htl] at hc
      simp at hc
      subst hc
      exact hdt
    obtain ⟨c, r, hv, hcne⟩ := printValue_head_spec v
    have hpv := parseValue_print v (printElemsTail vs ++ rest) hsafe
    rw [hv, List.cons_append] at hpv
    obtain ⟨hlenv, hx⟩ := projParse_inv _ hpv
    obtain ⟨hlent, hx2⟩ := projParse_inv _ (parseElemsTail_print vs rest)
    have hin : printElems (v :: vs) ++ rest =
        c :: (r ++ (printElemsTail vs ++ rest)) := by
      rw [show printElems (v :: vs) = printValue v ++ printElemsTail vs from by
        simp [printElems], hv]
      simp
    rw [parseElemsProj, hin, parseElems.eq_def]
    simp [hcne, hx, hx2]
termination_by sizeOf vs
/-- Parsing a printed array continuation recovers the remaining elements. -/
theorem parseElemsTail_print (vs : List Value) :
    ∀ rest : List Char,
      parseElemsTailProj (printElemsTail vs ++ rest) = some (vs, rest) := by
  cases vs with
  | nil =>
    intro rest
    rw [show printElemsTail [] = [']'] from by simp [printElemsTail]]
    rw [parseElemsTailProj, parseElemsTail.eq_def]
    simp
  | cons v vs =>
    intro rest
    obtain ⟨ct, rt, htl, hdt⟩ := printElemsTail_head vs
    have hsafe : ∀ c, (printElemsTail vs ++ rest).head? = some c →
        c.isDigit = false := by
      intro c hc
      rw [htl] at hc
      simp at hc
      subst hc
      exact hdt
    obtain ⟨hlenv, hx⟩ :=
      projParse_inv _ (parseValue_print v (printElemsTail vs ++ rest) hsafe)
    obtain ⟨hlent, hx2⟩ := projParse_inv _ (parseElemsTail_print vs rest)
    have hin : printElemsTail (v :: vs) ++ rest =
        ',' :: (printValue v ++ (printElemsTail vs ++ rest)) := by
      rw [show printElemsTail (v :: vs) =
          ',' :: (printValue v ++ printElemsTail vs) from by simp [printElemsTail]]
      simp
    rw [parseElemsTailProj, hin, parseElemsTail.eq_def]
    simp [hx, hx2]
termination_by sizeOf vs
/-- Parsing printed object contents recovers the members. -/
theorem parseMembers_print (fs : List (String × Value)) :
    ∀ rest : List Char,
      parseMembersProj (printMembers fs ++ rest) = some (fs, rest) := by
  cases fs with
  | nil =>
    intro rest
    rw [show printMembers [] = ['\x7d'] from by simp [printMembers]]
    rw [parseMembersProj, parseMembers.eq_def]
    simp
  | cons f fs =>
    intro rest
    obtain ⟨k, v⟩ := f
    obtain ⟨ct, rt, htl, hdt⟩ := printMembersTail_head fs
    have hsafe : ∀ c, (printMembersTail fs ++ rest).head? = some c →
        c.isDigit = false := by
      intro c hc
      rw [htl] at hc
      simp at hc
      subst hc
      exact hdt
    obtain ⟨hlenv, hx⟩ :=
      projParse_inv _ (parseValue_print v (printMembersTail fs ++ rest) hsafe)
    obtain ⟨hlent, hx2⟩ := projParse_inv _ (parseMembersTail_print fs rest)
    obtain ⟨hlenk, hxs⟩ := projParse_inv _
      (parseJStrChars_print k.data
        (':' :: (printValue v ++ (printMembersTail fs ++ rest))))
    have hin : printMembers ((k, v) :: fs) ++ rest =
        '"' :: ((k.data.map escChar).flatten ++
          ('"' :: (':' :: (printValue v ++ (printMembersTail fs ++ rest))))) := by
      rw [show printMembers ((k, v) :: fs) =
          printJString k ++ (':' :: (printValue v ++ printMembersTail fs)) from by
        simp [printMembers]]
      simp [printJString]
    rw [parseMembersProj, hin, parseMembers.eq_def]
    simp [hxs, hx, hx2, show String.mk k.data = k from by cases k; rfl]
termination_by sizeOf fs
/-- Parsing a printed object continuation recovers the remaining members. -/
theorem parseMembersTail_print (fs : List (String × Value)) :
    ∀ rest : List Char,
      parseMembersTailProj (printMembersTail fs ++ rest) = some (fs, rest) := by
  cases fs with
  | nil =>
    intro rest
    rw [show printMembersTail [] = ['\x7d'] from by simp [printMembersTail]]
    rw [parseMembersTailProj, parseMembersTail.eq_def]
    simp
  | cons f fs =>
    intro rest
    obtain ⟨k, v⟩ := f
    obtain ⟨ct, rt, htl, hdt⟩ := printMembersTail_head fs
    have hsafe : ∀ c, (printMembersTail fs ++ rest).head? = some c →
        c.isDigit = false := by
      intro c hc
      rw [htl] at hc
      simp at hc
      subst hc
      exact hdt
    obtain ⟨hlenv, hx⟩ :=
      projParse_inv _ (parseValue_print v (printMembersTail fs ++ rest) hsafe)
    obtain ⟨hlent, hx2⟩ := projParse_inv _ (parseMembersTail_print fs rest)
    obtain ⟨hlenk, hxs⟩ := projParse_inv _
      (parseJStrChars_print k.data
        (':' :: (printValue v ++ (printMembersTail fs ++ rest))))
    have hin : printMembersTail ((k, v) :: fs) ++ rest =
        ',' :: ('"' :: ((k.data.map escChar).flatten ++
          ('"' :: (':' :: (printValue v ++ (printMembersTail fs ++ rest)))))) := by
      rw [show printMembersTail ((k, v) :: fs) =
          ',' :: (printJString k ++ (':' :: (printValue v ++ printMembersTail fs))) from by
        simp [printMembersTail]]
      simp [printJString]
    rw [parseMembersTailProj, hin, parseMembersTail.eq_def]
    simp [hxs, hx, hx2, show String.mk k.data = k from by cases k; rfl]
termination_by sizeOf fs
end

/-- C6: a message constructed through `__post_init__` always carries a
non-null timestamp, and serializing it to its textual JSON form and
deserializing it back yields a message equal field for field to the
original, whatever the (arbitrary-depth) nested payload. -/
theorem mcp_message_roundtrip (now now2 sender receiver type trace_id : String)
    (payload : List (String × Value)) (ts : Option String) :
    (MCPMessage.make now sender receiver type trace_id payload ts).timestamp ≠ none ∧
    MCPMessage.from_json now2
        (MCPMessage.to_json
          (MCPMessage.make now sender receiver type trace_id payload ts)) =
      some (MCPMessage.make now sender receiver type trace_id payload ts) := by
  constructor
  · simp [MCPMessage.make]
  · rw [MCPMessage.to_json, MCPMessage.from_json]
    have hsafe : ∀ c : Char, ([] : List Char).head? = some c → c.isDigit = false := by
      intro c hc
      simp at hc
    have h := parseValue_print
      (MCPMessage.to_dict (MCPMessage.make now sender receiver type trace_id payload ts))
      [] hsafe
    rw [List.append_nil] at h
    obtain ⟨hlen, hx⟩ := projParse_inv _ h
    rw [hx]
    rfl

/-- C3: when the retrieval stage answers with an ERROR-typed message — as
the source retrieval agent does for an empty query string — the
coordinator's query workflow returns a failure result whose error text
names the retrieval stage, and the response synthesizer is never invoked:
the result is identical under any two synthesizer behaviours.  The model is
a total function, mirroring the try/except that keeps any exception from
escaping the coordinator's entry point. -/
theorem query_workflow_retrieval_error (now : String)
    (retrieve llm llm2 : MCPMessage → MCPMessage) (message : MCPMessage)
    (herr : (retrieve (MCPMessage.make now "CoordinatorAgent" "RetrievalAgent"
      "RETRIEVAL_REQUEST" message.trace_id
      [("query", dictGetD message.payload "query" Value.null),
       ("top_k", Value.num 5)] none)).type = "ERROR") :
    (handle_query_request now retrieve llm message).type = "ERROR" ∧
    dictGet? (handle_query_request now retrieve llm message).payload "status" =
      some (Value.str "failed") ∧
    dictGet? (handle_query_request now retrieve llm message).payload "error" =
      some (Value.str ("Retrieval failed: " ++
        pyStr (dictGetD (retrieve (MCPMessage.make now "CoordinatorAgent"
          "RetrievalAgent" "RETRIEVAL_REQUEST" message.trace_id
          [("query", dictGetD message.payload "query" Value.null),
           ("top_k", Value.num 5)] none)).payload "error" Value.null))) ∧
    handle_query_request now retrieve llm message =
      handle_query_request now retrieve llm2 message := by
  have hres : ∀ f : MCPMessage → MCPMessage,
      handle_query_request now retrieve f message =
        create_response_message now message "CoordinatorAgent" "ERROR"
          [("status", Value.str "failed"),
           ("error", Value.str ("Retrieval failed: " ++
             pyStr (dictGetD (retrieve (MCPMessage.make now "CoordinatorAgent"
               "RetrievalAgent" "RETRIEVAL_REQUEST" message.trace_id
               [("query", dictGetD message.payload "query" Value.null),
                ("top_k", Value.num 5)] none)).payload "error" Value.null)))] := by
    intro f
    unfold handle_query_request
    simp only [herr, if_true]
  rw [hres llm, hres llm2]
  exact ⟨rfl, rfl, rfl, rfl⟩

/-- Witness for C3: a query request with no query string at all, against the
source retrieval agent over an empty store — its empty-query guard returns
the ERROR response, the coordinator reports "Retrieval failed: No query
provided for retrieval", and two different synthesizers give one result. -/
theorem query_workflow_retrieval_error_witness :
    ((retrievalHandle "t0" (fun _ => []) (fun _ => Value.null) (fun s _ => some s)
        ⟨vsFixture, []⟩
        (MCPMessage.make "t0" "CoordinatorAgent" "RetrievalAgent"
          "RETRIEVAL_REQUEST"
          (MCPMessage.make "t0" "user" "CoordinatorAgent" "QUERY_REQUEST" "tr"
            [] none).trace_id
          [("query", dictGetD (MCPMessage.make "t0" "user" "CoordinatorAgent"
              "QUERY_REQUEST" "tr" [] none).payload "query" Value.null),
           ("top_k", Value.num 5)] none)).type = "ERROR") ∧
    (handle_query_request "t0"
      (retrievalHandle "t0" (fun _ => []) (fun _ => Value.null) (fun s _ => some s)
        ⟨vsFixture, []⟩)
      (fun m => m)
      (MCPMessage.make "t0" "user" "CoordinatorAgent" "QUERY_REQUEST" "tr"
        [] none)).type = "ERROR" := by
  have h := query_workflow_retrieval_error "t0"
    (retrievalHandle "t0" (fun _ => []) (fun _ => Value.null) (fun s _ => some s)
      ⟨vsFixture, []⟩)
    (fun m => m) (fun _ => MCPMessage.make "t0" "x" "y" "z" "w" [] none)
    (MCPMessage.make "t0" "user" "CoordinatorAgent" "QUERY_REQUEST" "tr" [] none)
    rfl
  exact ⟨rfl, h.1⟩

/-- The indexing loop never counts more successes than submitted chunks. -/
theorem indexChunksLoop_le {σ : Type} (tryChunk : σ → Value → Option σ) :
    ∀ st chunks, (indexChunksLoop tryChunk st chunks).2 ≤ chunks.length := by
  intro st chunks
  induction chunks generalizing st with
  | nil => simp [indexChunksLoop]
  | cons c cs ih =>
    rw [indexChunksLoop]
    cases h : tryChunk st c with
    | some st2 =>
      simp only [List.length_cons]
      have := ih st2
      omega
    | none =>
      simp only [List.length_cons]
      have := ih st
      omega

/-- When per-chunk success is a pure predicate on the chunk, the loop counts
exactly the chunks satisfying it. -/
theorem indexChunksLoop_countP {σ : Type} (tryChunk : σ → Value → Option σ)
    (p : Value → Bool) (hp : ∀ s c, (tryChunk s c).isSome = p c) :
    ∀ st chunks, (indexChunksLoop tryChunk st chunks).2 = chunks.countP p := by
  intro st chunks
  induction chunks generalizing st with
  | nil => simp [indexChunksLoop]
  | cons c cs ih =>
    rw [indexChunksLoop, List.countP_cons]
    cases h : tryChunk st c with
    | some st2 =>
      have hsucc : p c = true := by rw [← hp st c, h]; rfl
      simp [hsucc, ih st2]
    | none =>
      have hfail : p c = false := by rw [← hp st c, h]; rfl
      simp [hfail, ih st]

/-- C7: indexing fails with "No chunks provided for indexing" exactly when
the submitted chunk list is empty (falsy); otherwise — whatever per-chunk
failures occur — the batch is never aborted: the result is an
INGESTION_COMPLETE success whose `indexed_chunks` is the number of chunks
that succeeded (at most the total), reported alongside `total_chunks`, the
number submitted; and when per-chunk success depends only on the chunk, the
count is exactly the number of chunks passing. -/
theorem index_document_batch {σ : Type} (now : String)
    (tryChunk : σ → Value → Option σ) (st : σ) (message : MCPMessage) :
    (pyTruthy (dictGetD message.payload "chunks" (Value.arr [])) = false →
      (index_document now tryChunk st message).1.type = "ERROR" ∧
      dictGet? (index_document now tryChunk st message).1.payload "error" =
        some (Value.str "No chunks provided for indexing")) ∧
    (∀ chunks, dictGetD message.payload "chunks" (Value.arr []) = Value.arr chunks →
      chunks ≠ [] →
      (index_document now tryChunk st message).1.type = "INGESTION_COMPLETE" ∧
      dictGet? (index_document now tryChunk st message).1.payload "indexed_chunks" =
        some (Value.num ((indexChunksLoop tryChunk st chunks).2 : Int)) ∧
      dictGet? (index_document now tryChunk st message).1.payload "total_chunks" =
        some (Value.num (chunks.length : Int)) ∧
      (indexChunksLoop tryChunk st chunks).2 ≤ chunks.length) ∧
    (∀ p : Value → Bool, (∀ s c, (tryChunk s c).isSome = p c) →
      ∀ st2 chunks2,
        (indexChunksLoop tryChunk st2 chunks2).2 = chunks2.countP p) := by
  refine ⟨?_, ?_, fun p hp st2 chunks2 => indexChunksLoop_countP tryChunk p hp st2 chunks2⟩
  · intro hfalse
    unfold index_document
    simp only [hfalse, if_true]
    exact ⟨rfl, rfl⟩
  · intro chunks harr hne
    have harrTrue : pyTruthy (Value.arr chunks) = true := by
      simp [pyTruthy, List.isEmpty_iff, hne]
    unfold index_document
    simp only [harr, harrTrue, Bool.true_eq_false, if_false]
    exact ⟨rfl, rfl, rfl, indexChunksLoop_le tryChunk st chunks⟩

/-- Witness for C7: three chunks submitted, the middle one failing — the
batch still completes, reporting 2 of 3 indexed; and the empty case errors. -/
theorem index_document_batch_witness :
    (pyTruthy (dictGetD ([("chunks", Value.arr [])] : List (String × Value))
        "chunks" (Value.arr [])) = false) ∧
    (dictGetD ([("chunks", Value.arr [Value.num 0, Value.num 1, Value.num 2])] :
        List (String × Value)) "chunks" (Value.arr []) =
      Value.arr [Value.num 0, Value.num 1, Value.num 2]) ∧
    ((index_document "t0"
        (fun (s : Unit) c => match c with
          | Value.num 1 => none
          | _ => some s)
        ()
        (MCPMessage.make "t0" "user" "RetrievalAgent" "DOCUMENT_PARSED" "tr"
          [("chunks", Value.arr [Value.num 0, Value.num 1, Value.num 2])]
          none)).1.type = "INGESTION_COMPLETE" ∧
      dictGet? (index_document "t0"
        (fun (s : Unit) c => match c with
          | Value.num 1 => none
          | _ => some s)
        ()
        (MCPMessage.make "t0" "user" "RetrievalAgent" "DOCUMENT_PARSED" "tr"
          [("chunks", Value.arr [Value.num 0, Value.num 1, Value.num 2])]
          none)).1.payload "indexed_chunks" = some (Value.num 2) ∧
      dictGet? (index_document "t0"
        (fun (s : Unit) c => match c with
          | Value.num 1 => none
          | _ => some s)
        ()
        (MCPMessage.make "t0" "user" "RetrievalAgent" "DOCUMENT_PARSED" "tr"
          [("chunks", Value.arr [Value.num 0, Value.num 1, Value.num 2])]
          none)).1.payload "total_chunks" = some (Value.num 3)) := by
  refine ⟨rfl, rfl, ?_⟩
  have h := (index_document_batch "t0"
    (fun (s : Unit) c => match c with
      | Value.num 1 => none
      | _ => some s)
    ()
    (MCPMessage.make "t0" "user" "RetrievalAgent" "DOCUMENT_PARSED" "tr"
      [("chunks", Value.arr [Value.num 0, Value.num 1, Value.num 2])]
      none)).2.1 [Value.num 0, Value.num 1, Value.num 2] rfl (by simp)
  exact ⟨h.1, by rw [h.2.1]; rfl, h.2.2.1⟩

/-- The type tag of a freshly built response message. -/
theorem create_response_message_type (now : String) (orig : MCPMessage)
    (sender ty : String) (payload : List (String × Value)) :
    (create_response_message now orig sender ty payload).type = ty := rfl

/-- The payload of a freshly built response message. -/
theorem create_response_message_payload (now : String) (orig : MCPMessage)
    (sender ty : String) (payload : List (String × Value)) :
    (create_response_message now orig sender ty payload).payload = payload := rfl

/-- Over an empty index, a truthy query retrieves successfully with zero
results: `search` short-circuits on `ntotal == 0`. -/
theorem retrieve_context_empty_store (now : String) (embed : String → Vec)
    (f2v : ℝ → Value) (st : RetrievalAgentState) (msg : MCPMessage)
    (hempty : st.vector_store.vectors = [])
    (hq : pyTruthy (dictGetD msg.payload "query" Value.null) = true)
    (htk : dictGetD msg.payload "top_k" (Value.num 5) = Value.num 5) :
    retrieve_context now embed f2v st msg =
      create_response_message now msg "RetrievalAgent" "RETRIEVAL_RESULT"
        [("status", Value.str "success"),
         ("query", dictGetD msg.payload "query" Value.null),
         ("retrieved_chunks", Value.arr []),
         ("sources", Value.arr []),
         ("total_results", Value.num 0)] := by
  have hsearch : ∀ qv k, st.vector_store.search qv k = [] := by
    intro qv k
    unfold VectorStore.search
    rw [hempty]
    simp
  unfold retrieve_context
  simp only [hq, Bool.true_eq_false, if_false, htk]
  simp only [hsearch, formatHitsLoop]
  rfl

/-- The synthesizer stage on a RETRIEVAL_RESULT with a truthy query and no
retrieved chunks answers the fixed no-context message. -/
theorem llm_stage_no_context (now : String)
    (contextual : String → List Value → String) (msg : MCPMessage)
    (hty : msg.type = "RETRIEVAL_RESULT")
    (hq : pyTruthy (dictGetD msg.payload "query" Value.null) = true)
    (hchunks : dictGetD msg.payload "retrieved_chunks" (Value.arr []) = Value.arr [])
    (hsrc : dictGetD msg.payload "sources" (Value.arr []) = Value.arr []) :
    llmHandle now contextual msg =
      create_response_message now msg "LLMResponseAgent" "LLM_RESPONSE"
        [("status", Value.str "success"),
         ("query", dictGetD msg.payload "query" Value.null),
         ("response", Value.str noContextResponse),
         ("sources", Value.arr []),
         ("context_chunks_used", Value.num 0)] := by
  unfold llmHandle
  simp only [hty, if_pos]
  unfold llm_generate_response
  simp only [hq, Bool.true_eq_false, if_false, hchunks, hsrc]
  rfl

/-- C8: the synthesizer answers the fixed insufficient-context message on an
empty chunk list, and the coordinator's query workflow over a vector store
holding zero vectors resolves to a SUCCESS result carrying exactly that
fixed message, an empty sources list, and zero context chunks used. -/
theorem query_workflow_empty_index (now : String) (embed : String → Vec)
    (f2v : ℝ → Value)
    (tryChunk : RetrievalAgentState → Value → Option RetrievalAgentState)
    (contextual : String → List Value → String)
    (st : RetrievalAgentState) (message : MCPMessage)
    (hempty : st.vector_store.vectors = [])
    (hq : pyTruthy (dictGetD message.payload "query" Value.null) = true) :
    (∀ query, generate_response contextual query [] = noContextResponse) ∧
    (handle_query_request now (retrievalHandle now embed f2v tryChunk st)
        (llmHandle now contextual) message).type = "SUCCESS" ∧
    dictGet? (handle_query_request now (retrievalHandle now embed f2v tryChunk st)
        (llmHandle now contextual) message).payload "response" =
      some (Value.str noContextResponse) ∧
    dictGet? (handle_query_request now (retrievalHandle now embed f2v tryChunk st)
        (llmHandle now contextual) message).payload "sources" =
      some (Value.arr []) ∧
    dictGet? (handle_query_request now (retrievalHandle now embed f2v tryChunk st)
        (llmHandle now contextual) message).payload "context_chunks_used" =
      some (Value.num 0) := by
  have hq2 : pyTruthy (dictGetD
      (MCPMessage.make now "CoordinatorAgent" "RetrievalAgent"
        "RETRIEVAL_REQUEST" message.trace_id
        [("query", dictGetD message.payload "query" Value.null),
         ("top_k", Value.num 5)] none).payload "query" Value.null) = true := hq
  have hR : retrievalHandle now embed f2v tryChunk st
      (MCPMessage.make now "CoordinatorAgent" "RetrievalAgent"
        "RETRIEVAL_REQUEST" message.trace_id
        [("query", dictGetD message.payload "query" Value.null),
         ("top_k", Value.num 5)] none) =
      create_response_message now
        (MCPMessage.make now "CoordinatorAgent" "RetrievalAgent"
          "RETRIEVAL_REQUEST" message.trace_id
          [("query", dictGetD message.payload "query" Value.null),
           ("top_k", Value.num 5)] none) "RetrievalAgent" "RETRIEVAL_RESULT"
        [("status", Value.str "success"),
         ("query", dictGetD message.payload "query" Value.null),
         ("retrieved_chunks", Value.arr []),
         ("sources", Value.arr []),
         ("total_results", Value.num 0)] :=
    retrieve_context_empty_store now embed f2v st
      (MCPMessage.make now "CoordinatorAgent" "RetrievalAgent"
        "RETRIEVAL_REQUEST" message.trace_id
        [("query", dictGetD message.payload "query" Value.null),
         ("top_k", Value.num 5)] none) hempty hq2 rfl
  have hq3 : pyTruthy (dictGetD
      (MCPMessage.make now "CoordinatorAgent" "LLMResponseAgent"
        "RETRIEVAL_RESULT" message.trace_id
        (dictSet [("status", Value.str "success"),
           ("query", dictGetD message.payload "query" Value.null),
           ("retrieved_chunks", Value.arr []),
           ("sources", Value.arr []),
           ("total_results", Value.num 0)] "conversation_history"
          (dictGetD message.payload "conversation_history" (Value.arr []))) none).payload
      "query" Value.null) = true := hq
  have hL : llmHandle now contextual (MCPMessage.make now "CoordinatorAgent"
      "LLMResponseAgent" "RETRIEVAL_RESULT" message.trace_id
      (dictSet [("status", Value.str "success"),
         ("query", dictGetD message.payload "query" Value.null),
         ("retrieved_chunks", Value.arr []),
         ("sources", Value.arr []),
         ("total_results", Value.num 0)] "conversation_history"
        (dictGetD message.payload "conversation_history" (Value.arr []))) none) =
      create_response_message now (MCPMessage.make now "CoordinatorAgent"
        "LLMResponseAgent" "RETRIEVAL_RESULT" message.trace_id
        (dictSet [("status", Value.str "success"),
           ("query", dictGetD message.payload "query" Value.null),
           ("retrieved_chunks", Value.arr []),
           ("sources", Value.arr []),
           ("total_results", Value.num 0)] "conversation_history"
          (dictGetD message.payload "conversation_history" (Value.arr []))) none)
        "LLMResponseAgent" "LLM_RESPONSE"
        [("status", Value.str "success"),
         ("query", dictGetD message.payload "query" Value.null),
         ("response", Value.str noContextResponse),
         ("sources", Value.arr []),
         ("context_chunks_used", Value.num 0)] :=
    llm_stage_no_context now contextual _ rfl hq3 rfl rfl
  have hres : handle_query_request now (retrievalHandle now embed f2v tryChunk st)
      (llmHandle now contextual) message =
      create_response_message now message "CoordinatorAgent" "SUCCESS"
        [("status", Value.str "success"),
         ("query", dictGetD message.payload "query" Value.null),
         ("response", Value.str noContextResponse),
         ("sources", Value.arr []),
         ("context_chunks_used", Value.num 0),
         ("workflow", Value.str "query_processing_complete")] := by
    unfold handle_query_request
    simp only [hR, create_response_message_type, create_response_message_payload]
    rw [if_neg (by decide : ¬("RETRIEVAL_RESULT" = "ERROR"))]
    simp only [hL, create_response_message_type, create_response_message_payload]
    rw [if_neg (by decide : ¬("LLM_RESPONSE" = "ERROR"))]
    rfl
  refine ⟨fun query => rfl, ?_, ?_, ?_, ?_⟩ <;> rw [hres] <;> rfl

/-- Witness for C8: a "hello" query against a store holding zero vectors —
the workflow succeeds and its response field is exactly the fixed
no-context message. -/
theorem query_workflow_empty_index_witness :
    generate_response (fun _ _ => "ctx") "hello" [] = noContextResponse ∧
    (handle_query_request "t0"
      (retrievalHandle "t0" (fun _ => []) (fun _ => Value.null) (fun s _ => some s)
        ⟨⟨1000, [], [], [], [], 0⟩, []⟩)
      (llmHandle "t0" (fun _ _ => "ctx"))
      (MCPMessage.make "t0" "user" "CoordinatorAgent" "QUERY_REQUEST" "tr"
        [("query", Value.str "hello")] none)).type = "SUCCESS" ∧
    dictGet? (handle_query_request "t0"
      (retrievalHandle "t0" (fun _ => []) (fun _ => Value.null) (fun s _ => some s)
        ⟨⟨1000, [], [], [], [], 0⟩, []⟩)
      (llmHandle "t0" (fun _ _ => "ctx"))
      (MCPMessage.make "t0" "user" "CoordinatorAgent" "QUERY_REQUEST" "tr"
        [("query", Value.str "hello")] none)).payload "response" =
      some (Value.str noContextResponse) := by
  have h := query_workflow_empty_index "t0" (fun _ => []) (fun _ => Value.null)
    (fun s _ => some s) (fun _ _ => "ctx")
    ⟨⟨1000, [], [], [], [], 0⟩, []⟩
    (MCPMessage.make "t0" "user" "CoordinatorAgent" "QUERY_REQUEST" "tr"
      [("query", Value.str "hello")] none) rfl (by decide)
  exact ⟨h.1 "hello", h.2.1, h.2.2.1⟩

/-- C10: with a non-empty string file_name and truthy file_content, the
upload validation passes whatever the declared file_type is (missing =
null, or empty) — any rejection happens only downstream, always prefixed
"Document processing failed:"; when the file-name extension is not
supported the error names the file name alone; and on a successful parse
the document is stored with the declared type exactly as submitted. -/
theorem ingestion_validation_ignores_file_type (now : String)
    (parse : Value → String → Except String ParsedData) (doc_id : String)
    (message : MCPMessage) (name : String)
    (hname : dictGetD message.payload "file_name" Value.null = Value.str name)
    (hn : name ≠ "")
    (hc : pyTruthy (dictGetD message.payload "file_content" Value.null) = true) :
    ((process_document now parse doc_id message).1.type = "ERROR" →
      ∃ e, dictGet? (process_document now parse doc_id message).1.payload
        "error" = some (Value.str ("Document processing failed: " ++ e))) ∧
    (parserTypeOf name = none →
      (process_document now parse doc_id message).1 =
        create_error_message now message "IngestionAgent"
          ("Document processing failed: Failed to parse document " ++ name ++
            ": Unsupported file type: " ++ name)) ∧
    (∀ res, parse_document parse name
        (dictGetD message.payload "file_content" Value.null)
        (dictGetD message.payload "file_type" Value.null) = Except.ok res →
      (process_document now parse doc_id message).1.type = "DOCUMENT_PARSED" ∧
      (process_document now parse doc_id message).2 =
        some { id := doc_id, name := name,
               type := dictGetD message.payload "file_type" Value.null,
               content := res.1, chunks := res.2.1, metadata := res.2.2 }) := by
  have hnt : pyTruthy (Value.str name) = true := bne_iff_ne.mpr hn
  have hmain : process_document now parse doc_id message =
      (match parse_document parse name
          (dictGetD message.payload "file_content" Value.null)
          (dictGetD message.payload "file_type" Value.null) with
       | Except.error e => (create_error_message now message "IngestionAgent"
           ("Document processing failed: " ++ e), none)
       | Except.ok res =>
         (create_response_message now message "IngestionAgent" "DOCUMENT_PARSED"
           [("status", Value.str "success"),
            ("document_id", Value.str doc_id),
            ("file_name", Value.str name),
            ("chunks", Value.arr (res.2.1.map chunkToValue)),
            ("metadata", Value.obj res.2.2),
            ("total_chunks", Value.num (res.2.1.length : Int))],
          some { id := doc_id, name := name,
                 type := dictGetD message.payload "file_type" Value.null,
                 content := res.1, chunks := res.2.1,
                 metadata := res.2.2 })) := by
    unfold process_document
    simp only [hname, hnt, hc, Bool.true_eq_false, or_self, if_false]
  refine ⟨?_, ?_, ?_⟩
  · intro hty
    cases hpd : parse_document parse name
        (dictGetD message.payload "file_content" Value.null)
        (dictGetD message.payload "file_type" Value.null) with
    | error e =>
      refine ⟨e, ?_⟩
      rw [hmain, hpd]
      rfl
    | ok res =>
      simp only [hmain, hpd, create_response_message_type] at hty
      exact absurd hty (by decide)
  · intro hnone
    have he : parse_document parse name
        (dictGetD message.payload "file_content" Value.null)
        (dictGetD message.payload "file_type" Value.null) =
        Except.error ("Failed to parse document " ++ name ++
          ": Unsupported file type: " ++ name) := by
      unfold parse_document
      rw [hnone]
    rw [hmain, he]
    rfl
  · intro res hok
    exact ⟨by rw [hmain, hok]; rfl, by rw [hmain, hok]⟩

/-- Witness for C10: a two-word .txt upload with NO file_type key at all is
parsed (parser "text" from the extension) and stored with declared type
null. -/
theorem ingestion_validation_ignores_file_type_witness :
    parse_document (fun _ _ => Except.ok ⟨"hello world", [], 1⟩) "notes.txt"
        (Value.str "hello world") Value.null =
      Except.ok ("hello world", chunk_text "hello world" "notes.txt" 1000 200,
        [("file_name", Value.str "notes.txt"),
         ("file_type", Value.null),
         ("parser_type", Value.str "text"),
         ("page_count", Value.num 1),
         ("word_count", Value.num 2)]) ∧
    (process_document "t0" (fun _ _ => Except.ok ⟨"hello world", [], 1⟩) "d1"
      (MCPMessage.make "t0" "ui" "IngestionAgent" "DOCUMENT_UPLOAD" "tr"
        [("file_name", Value.str "notes.txt"),
         ("file_content", Value.str "hello world")] none)).1.type =
      "DOCUMENT_PARSED" ∧
    (process_document "t0" (fun _ _ => Except.ok ⟨"hello world", [], 1⟩) "d1"
      (MCPMessage.make "t0" "ui" "IngestionAgent" "DOCUMENT_UPLOAD" "tr"
        [("file_name", Value.str "notes.txt"),
         ("file_content", Value.str "hello world")] none)).2 =
      some { id := "d1", name := "notes.txt", type := Value.null,
             content := "hello world",
             chunks := chunk_text "hello world" "notes.txt" 1000 200,
             metadata := [("file_name", Value.str "notes.txt"),
               ("file_type", Value.null),
               ("parser_type", Value.str "text"),
               ("page_count", Value.num 1),
               ("word_count", Value.num 2)] } := by
  have hpd : parse_document (fun _ _ => Except.ok ⟨"hello world", [], 1⟩)
      "notes.txt" (Value.str "hello world") Value.null =
      Except.ok ("hello world", chunk_text "hello world" "notes.txt" 1000 200,
        [("file_name", Value.str "notes.txt"),
         ("file_type", Value.null),
         ("parser_type", Value.str "text"),
         ("page_count", Value.num 1),
         ("word_count", Value.num 2)]) := rfl
  have h := ingestion_validation_ignores_file_type "t0"
    (fun _ _ => Except.ok ⟨"hello world", [], 1⟩) "d1"
    (MCPMessage.make "t0" "ui" "IngestionAgent" "DOCUMENT_UPLOAD" "tr"
      [("file_name", Value.str "notes.txt"),
       ("file_content", Value.str "hello world")] none)
    "notes.txt" rfl (by decide) (by decide)
  exact ⟨hpd, (h.2.2 _ hpd).1, (h.2.2 _ hpd).2⟩
